import Mathlib

/-!
Verification of the contract GraphRAG pipeline (`02_build_graph.py`,
`contract_graphrag/contract_service.py`, `contract_graphrag/contract_tools.py`)
against its specification.

The property-graph store is shallowly embedded: a `Graph` value carries the
node and relationship lists, and each Cypher statement of the source becomes a
Lean function transforming a `Graph`.  Freshly created nodes (`CREATE`) draw
internal identities from a `nextId` counter, mirroring Neo4j element ids.
-/

/-- Input record shape, from `schema.py` (`GoverningLaw`). -/
structure GoverningLaw where
  country : String
  state : String
  most_favored_country : String
deriving DecidableEq, Repr

/-- Input record shape, from `schema.py` (`Party`). -/
structure Party where
  role : String
  name : String
  incorporation_country : String
  incorporation_state : String
deriving DecidableEq, Repr

/-- Input record shape, from `schema.py` (`ContractClause`): one clause
category with its existence flag and supporting excerpts. -/
structure ClauseRecord where
  clause_type : String
  «exists» : Bool
  excerpts : List String
deriving DecidableEq, Repr

/-- Input record shape, from `schema.py` (`Agreement`), with the
`contract_id` that `load_contracts_from_json` assigns by ingestion order. -/
structure Agreement where
  contract_id : Int
  agreement_name : String
  agreement_type : String
  effective_date : String
  expiration_date : String
  renewal_term : String
  Notice_period_to_Terminate_Renewal : String
  parties : List Party
  governing_law : GoverningLaw
  clauses : List ClauseRecord
deriving DecidableEq, Repr

/-- Properties stored on an `Agreement` node by the `ON CREATE SET` block of
`CREATE_GRAPH_QUERY`. -/
structure AgreementProps where
  name : String
  effective_date : String
  expiration_date : String
  agreement_type : String
  renewal_term : String
  most_favored_country : String
  Notice_period_to_Terminate_Renewal : String
deriving DecidableEq, Repr

/-- An `Excerpt` node: internal id, `text` property, and the optional
`embedding` property written later by the backfill step. -/
structure ExcerptNode where
  id : Nat
  text : String
  embedding : Option (List Int)
deriving DecidableEq, Repr

/-- The property graph.  `Agreement` nodes are keyed by `contract_id`
(the `MERGE` key); `Organization`, `Country` and `ClauseType` nodes by their
`name` (their `MERGE` keys); `ContractClause` and `Excerpt` nodes carry a
fresh internal id because `CREATE_GRAPH_QUERY` can materialize several nodes
with identical properties.  Relationship lists store
(endpoint, endpoint, property) triples. -/
structure Graph where
  agreements : List (Int × AgreementProps)
  organizations : List String
  countries : List String
  contractClauses : List (Nat × String)
  excerpts : List ExcerptNode
  clauseTypes : List String
  governed_by_law : List (Int × String × String)
  is_party_to : List (String × Int × String)
  incorporated_in : List (String × String × String)
  has_clause : List (Int × Nat × String)
  has_excerpt : List (Nat × Nat)
  has_type : List (Nat × String)
  nextId : Nat
deriving DecidableEq, Repr

def Graph.empty : Graph :=
  { agreements := [], organizations := [], countries := [], contractClauses := []
    excerpts := [], clauseTypes := [], governed_by_law := [], is_party_to := []
    incorporated_in := [], has_clause := [], has_excerpt := [], has_type := []
    nextId := 0 }

/-- `MERGE` of a node keyed by a single string property. -/
def insertIfAbsent (xs : List String) (x : String) : List String :=
  if xs.contains x then xs else xs ++ [x]

/-- Does an `Agreement` node with this `contract_id` exist (the
`MERGE (agreement:Agreement {contract_id: …})` match)? -/
def agreementPresent (g : Graph) (cid : Int) : Bool :=
  g.agreements.any (fun p => p.1 == cid)

/-- Does a `GOVERNED_BY_LAW` edge between this agreement and country exist? -/
def hasGoverningEdge (g : Graph) (cid : Int) (country : String) : Bool :=
  g.governed_by_law.any (fun e => e.1 == cid && e.2.1 == country)

/-- Does an `IS_PARTY_TO` edge between this organization and agreement exist? -/
def hasIsPartyTo (g : Graph) (name : String) (cid : Int) : Bool :=
  g.is_party_to.any (fun e => e.1 == name && e.2.1 == cid)

/-- Does an `INCORPORATED_IN` edge between this organization and country exist? -/
def hasIncorporatedIn (g : Graph) (name country : String) : Bool :=
  g.incorporated_in.any (fun e => e.1 == name && e.2.1 == country)

/-- Does the pattern `(cl)-[:HAS_EXCERPT]->(e:Excerpt {text: …})` match? -/
def excerptLinked (g : Graph) (cl : Nat) (text : String) : Bool :=
  g.has_excerpt.any (fun he => he.1 == cl &&
    g.excerpts.any (fun e => e.id == he.2 && e.text == text))

/-- Does a `HAS_CLAUSE` edge between this agreement and clause node exist? -/
def hasClauseEdge (g : Graph) (cid : Int) (cl : Nat) : Bool :=
  g.has_clause.any (fun e => e.1 == cid && e.2.1 == cl)

/-- Does a `HAS_TYPE` edge between this clause node and type node exist? -/
def hasTypeEdge (g : Graph) (cl : Nat) (ty : String) : Bool :=
  g.has_type.any (fun e => e.1 == cl && e.2 == ty)

/-- `MERGE (agreement:Agreement {contract_id: a.contract_id}) ON CREATE SET …`:
reuse the node if the key matches, otherwise create it and set the properties
(properties are written only in the `ON CREATE` branch). -/
def mergeAgreement (g : Graph) (a : Agreement) : Graph :=
  if agreementPresent g a.contract_id then g
  else
    { g with agreements := g.agreements ++ [(a.contract_id,
        { name := a.agreement_name
          effective_date := a.effective_date
          expiration_date := a.expiration_date
          agreement_type := a.agreement_type
          renewal_term := a.renewal_term
          most_favored_country := a.governing_law.most_favored_country
          Notice_period_to_Terminate_Renewal := a.Notice_period_to_Terminate_Renewal })] }

/-- `MERGE (gl_country:Country {name: …})`, `MERGE (agreement)-[gbl:GOVERNED_BY_LAW]->(gl_country)`,
`SET gbl.state = …` (the `SET` runs on both the created and the matched edge). -/
def mergeGovernedByLaw (g : Graph) (cid : Int) (gl : GoverningLaw) : Graph :=
  let g := { g with countries := insertIfAbsent g.countries gl.country }
  if hasGoverningEdge g cid gl.country then
    let updated := g.governed_by_law.map
      (fun e => if e.1 == cid && e.2.1 == gl.country then (e.1, e.2.1, gl.state) else e)
    { g with governed_by_law := updated }
  else
    { g with governed_by_law := g.governed_by_law ++ [(cid, gl.country, gl.state)] }

/-- One iteration of `FOREACH (party IN a.parties | …)`:
merge the `Organization`, the `IS_PARTY_TO` edge (setting `role`), the
incorporation `Country`, and the `INCORPORATED_IN` edge (setting `state`). -/
def mergeParty (cid : Int) (g : Graph) (party : Party) : Graph :=
  let g := { g with organizations := insertIfAbsent g.organizations party.name }
  let g :=
    if hasIsPartyTo g party.name cid then
      let updated := g.is_party_to.map
        (fun e => if e.1 == party.name && e.2.1 == cid then (e.1, e.2.1, party.role) else e)
      { g with is_party_to := updated }
    else
      { g with is_party_to := g.is_party_to ++ [(party.name, cid, party.role)] }
  let g := { g with countries := insertIfAbsent g.countries party.incorporation_country }
  if hasIncorporatedIn g party.name party.incorporation_country then
    let updated := g.incorporated_in.map
      (fun e => if e.1 == party.name && e.2.1 == party.incorporation_country
                then (e.1, e.2.1, party.incorporation_state) else e)
    { g with incorporated_in := updated }
  else
    { g with incorporated_in :=
        g.incorporated_in ++ [(party.name, party.incorporation_country, party.incorporation_state)] }

/-- `MERGE (cl)-[:HAS_EXCERPT]->(e:Excerpt {text: excerpt})`: the whole
pattern, anchored at the bound clause node `cl`, is matched; only when no
`HAS_EXCERPT` edge from `cl` reaches an `Excerpt` with this text are a fresh
`Excerpt` node and the edge created. -/
def mergeExcerpt (cl : Nat) (g : Graph) (text : String) : Graph :=
  if excerptLinked g cl text then g
  else
    { g with
        excerpts := g.excerpts ++ [{ id := g.nextId, text := text, embedding := none }]
        has_excerpt := g.has_excerpt ++ [(cl, g.nextId)]
        nextId := g.nextId + 1 }

/-- `MERGE (agreement)-[clt:HAS_CLAUSE]->(cl)` followed by `SET clt.type`. -/
def mergeHasClause (cid : Int) (cl : Nat) (ty : String) (g : Graph) : Graph :=
  if hasClauseEdge g cid cl then
    let updated := g.has_clause.map
      (fun e => if e.1 == cid && e.2.1 == cl then (e.1, e.2.1, ty) else e)
    { g with has_clause := updated }
  else
    { g with has_clause := g.has_clause ++ [(cid, cl, ty)] }

/-- `MERGE (cl)-[:HAS_TYPE]->(clType)` with both endpoints bound. -/
def mergeHasType (cl : Nat) (ty : String) (g : Graph) : Graph :=
  if hasTypeEdge g cl ty then g
  else { g with has_type := g.has_type ++ [(cl, ty)] }

/-- One iteration of `FOREACH (clause IN valid_clauses | …)`:
`CREATE (cl:ContractClause {type: …})` (always a fresh node), `MERGE` the
`HAS_CLAUSE` edge and `SET clt.type`, merge each excerpt, merge the shared
`ClauseType` node (`MERGE (clType:ClauseType {name: …})`) and the `HAS_TYPE`
edge. -/
def createClause (cid : Int) (g : Graph) (clause : ClauseRecord) : Graph :=
  let cl := g.nextId
  let g := { g with
      contractClauses := g.contractClauses ++ [(cl, clause.clause_type)]
      nextId := g.nextId + 1 }
  let g := mergeHasClause cid cl clause.clause_type g
  let g := clause.excerpts.foldl (mergeExcerpt cl) g
  let g := { g with clauseTypes := insertIfAbsent g.clauseTypes clause.clause_type }
  mergeHasType cl clause.clause_type g

/-- `[clause IN a.clauses WHERE clause.exists = true]`. -/
def validClauses (a : Agreement) : List ClauseRecord :=
  a.clauses.filter (fun c => c.«exists»)

/-- Executing `CREATE_GRAPH_QUERY` once for one record (`02_build_graph.py`). -/
def createGraph (g : Graph) (a : Agreement) : Graph :=
  let g := mergeAgreement g a
  let g := mergeGovernedByLaw g a.contract_id a.governing_law
  let g := a.parties.foldl (mergeParty a.contract_id) g
  (validClauses a).foldl (createClause a.contract_id) g

/-- Internal ids used by nodes and relationships stay below the fresh-id
counter: this is the element-id discipline Neo4j guarantees, and the builder
preserves it. -/
def Graph.IdsBounded (g : Graph) : Prop :=
  (∀ c ∈ g.contractClauses, c.1 < g.nextId) ∧
  (∀ e ∈ g.excerpts, e.id < g.nextId) ∧
  (∀ hc ∈ g.has_clause, hc.2.1 < g.nextId) ∧
  (∀ he ∈ g.has_excerpt, he.1 < g.nextId ∧ he.2 < g.nextId) ∧
  (∀ ht ∈ g.has_type, ht.1 < g.nextId)

instance (g : Graph) : Decidable g.IdsBounded := by
  unfold Graph.IdsBounded; infer_instance

/-! ## Retrieval service (`contract_graphrag/contract_service.py`) -/

/-- Match of `(a:Agreement {contract_id: $contract_id})`. -/
def lookupAgreement (g : Graph) (cid : Int) : Option AgreementProps :=
  (g.agreements.find? (fun p => p.1 == cid)).map (·.2)


/-- Row list of `MATCH (a {contract_id: …})-[:HAS_CLAUSE]->(clause:ContractClause)`:
the `type` property of each clause node reached from the agreement. -/
def clauseRows (g : Graph) (cid : Int) : List String :=
  (g.has_clause.filter (fun e => e.1 == cid)).filterMap
    (fun e => (g.contractClauses.find? (fun c => c.1 == e.2.1)).map (·.2))

/-- One party entry as assembled by the Python result loop:
name, role, incorporation country, incorporation state. -/
structure PartyDetail where
  name : String
  role : String
  incorporation_country : String
  incorporation_state : String
deriving DecidableEq, Repr

/-- Row list of
`MATCH (country:Country)-[i:INCORPORATED_IN]-(p:Organization)-[r:IS_PARTY_TO]-(a)`:
one row per (party, incorporation country) combination reachable from the
agreement. -/
def partyRows (g : Graph) (cid : Int) : List PartyDetail :=
  (g.is_party_to.filter (fun r => r.2.1 == cid && g.organizations.contains r.1)).flatMap
    (fun r => (g.incorporated_in.filter (fun i => i.1 == r.1 && g.countries.contains i.2.1)).map
      (fun i => { name := r.1, role := r.2.2
                  incorporation_country := i.2.1, incorporation_state := i.2.2 }))

/-- The dictionary `get_contract` returns on success. -/
structure ContractDetail where
  contract_id : Int
  name : String
  agreement_type : String
  effective_date : String
  expiration_date : String
  renewal_term : String
  parties : List PartyDetail
  clauses : List String
deriving DecidableEq, Repr

/-- A service return value: either a `{"error": …}` dictionary or the
requested payload. -/
inductive ContractResult where
  | error (msg : String)
  | found (d : ContractDetail)
deriving DecidableEq, Repr

/-- `ContractSearchService.get_contract`.  A non-positive id is rejected
before any query; the query returns rows only when the agreement exists and
the two (non-optional) `MATCH` patterns both produce at least one row. -/
def ContractSearchService.get_contract (g : Graph) (contract_id : Int) : ContractResult :=
  if contract_id ≤ 0 then .error "Contract ID must be positive"
  else
    match lookupAgreement g contract_id with
    | none => .error ("Contract " ++ toString contract_id ++ " not found")
    | some props =>
      let clauses := clauseRows g contract_id
      let parties := partyRows g contract_id
      if clauses.isEmpty || parties.isEmpty then
        .error ("Contract " ++ toString contract_id ++ " not found")
      else
        .found { contract_id := contract_id, name := props.name
                 agreement_type := props.agreement_type
                 effective_date := props.effective_date
                 expiration_date := props.expiration_date
                 renewal_term := props.renewal_term
                 parties := parties, clauses := clauses }

/-- `MATCH (a:Agreement)-[:HAS_CLAUSE]->(cc:ContractClause {type: $clause_type})`
restricted to one agreement: does some clause node of this type hang off it? -/
def hasClauseOfType (g : Graph) (cid : Int) (t : String) : Bool :=
  g.has_clause.any (fun e => e.1 == cid &&
    g.contractClauses.any (fun c => c.1 == e.2.1 && c.2 == t))

/-- The summary dictionary built for the list-returning queries. -/
structure ContractSummary where
  contract_id : Int
  name : String
  agreement_type : String
  parties : List PartyDetail
deriving DecidableEq, Repr

def summarize (g : Graph) (a : Int × AgreementProps) : ContractSummary :=
  { contract_id := a.1, name := a.2.name
    agreement_type := a.2.agreement_type, parties := partyRows g a.1 }

/-- `ContractSearchService.get_contracts_with_clause_type`: agreements with a
clause node of the given type; the subsequent non-optional party `MATCH`
drops agreements with no (party, incorporation country) row. -/
def ContractSearchService.get_contracts_with_clause_type (g : Graph) (clause_type : String) : List ContractSummary :=
  ((g.agreements.filter
      (fun a => hasClauseOfType g a.1 clause_type && !(partyRows g a.1).isEmpty)).map
    (summarize g))

/-- `ContractSearchService.get_contracts_without_clause`: `OPTIONAL MATCH` of
the clause keeps an agreement only when no clause node of the type matched
(`WHERE cc IS NULL`); the party `MATCH` again drops party-less agreements. -/
def ContractSearchService.get_contracts_without_clause (g : Graph) (clause_type : String) : List ContractSummary :=
  ((g.agreements.filter
      (fun a => !hasClauseOfType g a.1 clause_type && !(partyRows g a.1).isEmpty)).map
    (summarize g))

/-- `ContractSearchService.get_contracts_by_organization`.  The full-text
index lookup (`db.index.fulltext.queryNodes`, highest score, `LIMIT 1`) is an
external store capability, passed in as `fulltextTop`; blank input returns
`[]` before any query. -/
def ContractSearchService.get_contracts_by_organization (g : Graph) (fulltextTop : Option String)
    (organization_name : String) : List ContractSummary :=
  if organization_name.trim == "" then []
  else
    match fulltextTop with
    | none => []
    | some o =>
      ((g.agreements.filter
          (fun a => g.is_party_to.any (fun e => e.1 == o && e.2.1 == a.1) &&
            !(partyRows g a.1).isEmpty)).map
        (summarize g))

/-- One row of the vector-search traversal query in
`get_contracts_similar_text`. -/
structure SimilarRow where
  contract_id : Int
  agreement_name : String
  clause_type : String
  excerpt : String
deriving DecidableEq, Repr

/-- `ContractSearchService.get_contracts_similar_text`.  The vector index
lookup is an external capability; `topNodes` is the list of matched `Excerpt`
node ids (top-k = 3).  For each matched node the retrieval query walks
`(a:Agreement)-[:HAS_CLAUSE]->(cc:ContractClause)-[:HAS_EXCERPT]-(node)`. -/
def ContractSearchService.get_contracts_similar_text (g : Graph) (topNodes : List Nat) : List SimilarRow :=
  topNodes.flatMap (fun nid =>
    (g.excerpts.filter (fun e => e.id == nid)).flatMap (fun e =>
      (g.has_excerpt.filter (fun he => he.2 == nid)).flatMap (fun he =>
        (g.contractClauses.filter (fun c => c.1 == he.1)).flatMap (fun c =>
          (g.has_clause.filter (fun hc => hc.2.1 == c.1)).filterMap (fun hc =>
            (g.agreements.find? (fun a => a.1 == hc.1)).map (fun a =>
              { contract_id := a.1, agreement_name := a.2.name
                clause_type := c.2, excerpt := e.text }))))))

/-- The per-item string accumulation of `answer_aggregation_question`:
`str(item.content)` of every row, blank-line separated, with the
`"No results found."` fallback for empty output. -/
def aggregationAnswer (items : List String) : String :=
  let answer := items.foldl (fun acc content =>
    if content ≠ "" then acc ++ content ++ "\n\n" else acc) ""
  if answer ≠ "" then answer else "No results found."

/-- `ContractSearchService.answer_aggregation_question`.  The
text-to-Cypher translation and the execution of the generated query happen
inside `retriever.search`, an external capability that either yields the
result rows or raises; `search` is its outcome.  The method body has no
exception handler, so a raised error propagates unchanged. -/
def ContractSearchService.answer_aggregation_question (search : Except String (List String)) :
    Except String String :=
  match search with
  | .error e => .error e
  | .ok items => .ok (aggregationAnswer items)

/-- The dictionary `get_contract_excerpts` returns on success; `clauses` maps
each clause type to its collected excerpt texts. -/
structure ExcerptsDetail where
  contract_id : Int
  name : String
  agreement_type : String
  effective_date : String
  expiration_date : String
  renewal_term : String
  clauses : List (String × List String)
deriving DecidableEq, Repr

inductive ExcerptsResult where
  | error (msg : String)
  | found (d : ExcerptsDetail)
deriving DecidableEq, Repr

/-- Rows of
`MATCH (a {contract_id: …})-[:HAS_CLAUSE]->(cc:ContractClause)-[:HAS_EXCERPT]->(e:Excerpt)`:
one (clause type, excerpt text) pair per matched path. -/
def excerptPairs (g : Graph) (cid : Int) : List (String × String) :=
  (g.has_clause.filter (fun hc => hc.1 == cid)).flatMap (fun hc =>
    (g.contractClauses.filter (fun c => c.1 == hc.2.1)).flatMap (fun c =>
      (g.has_excerpt.filter (fun he => he.1 == c.1)).flatMap (fun he =>
        (g.excerpts.filter (fun e => e.id == he.2)).map (fun e => (c.2, e.text)))))

/-- The grouping performed by Cypher's `collect` (grouped by clause type) and
the Python `clause_dict` loop: each distinct clause type, in first-appearance
order, with all its excerpt texts. -/
def groupExcerpts (rows : List (String × String)) : List (String × List String) :=
  (rows.foldl (fun acc r => if acc.contains r.1 then acc else acc ++ [r.1]) []).map
    (fun ty => (ty, (rows.filter (fun r => r.1 == ty)).map (·.2)))

/-- `ContractSearchService.get_contract_excerpts`: same non-positive-id guard
as `get_contract`; rows exist only when the agreement exists and some clause
has an excerpt. -/
def ContractSearchService.get_contract_excerpts (g : Graph) (contract_id : Int) : ExcerptsResult :=
  if contract_id ≤ 0 then .error "Contract ID must be positive"
  else
    match lookupAgreement g contract_id with
    | none => .error ("Contract " ++ toString contract_id ++ " not found")
    | some props =>
      let rows := excerptPairs g contract_id
      if rows.isEmpty then .error ("Contract " ++ toString contract_id ++ " not found")
      else
        .found { contract_id := contract_id, name := props.name
                 agreement_type := props.agreement_type
                 effective_date := props.effective_date
                 expiration_date := props.expiration_date
                 renewal_term := props.renewal_term
                 clauses := groupExcerpts rows }

/-! ## Embedding backfill (`generate_embeddings_for_excerpts` in `02_build_graph.py`) -/

/-- The selection query: every `Excerpt` with non-null `text` and null
`embedding`, as (element id, text) pairs.  In the embedding every node carries
a `text` string, so the `text IS NOT NULL` conjunct is always satisfied. -/
def pendingExcerpts (g : Graph) : List (Nat × String) :=
  (g.excerpts.filter (fun e => e.embedding.isNone)).map (fun e => (e.id, e.text))

/-- One loop iteration: call the embedding capability; on success run the
update query (`SET e.embedding = …` keyed by element id); on failure print a
warning and continue — the graph is left untouched. -/
def backfillStep (embed : String → Except String (List Int)) (g : Graph)
    (sel : Nat × String) : Graph :=
  match embed sel.2 with
  | .ok v =>
      let updated := g.excerpts.map
        (fun e => if e.id == sel.1 then { e with embedding := some v } else e)
      { g with excerpts := updated }
  | .error _ => g

/-- `generate_embeddings_for_excerpts`: select the pending excerpts, then
process them one by one.  The Python function returns `None`; the resulting
graph is the whole observable effect. -/
def generate_embeddings_for_excerpts (embed : String → Except String (List Int))
    (g : Graph) : Graph :=
  (pendingExcerpts g).foldl (backfillStep embed) g

/-- The value `generate_embeddings_for_excerpts` hands back to its caller:
the Python function ends without a `return` statement, i.e. it returns
`None`, regardless of how many items succeeded or failed. -/
def generate_embeddings_return (embed : String → Except String (List Int))
    (g : Graph) : Unit :=
  let _ := generate_embeddings_for_excerpts embed g
  ()

/-- How many pending excerpts the embedding capability succeeds on during a
run (derived measure; the code never computes or returns it). -/
def backfillSuccessCount (embed : String → Except String (List Int)) (g : Graph) : Nat :=
  ((pendingExcerpts g).filter (fun sel => (embed sel.2).toOption.isSome)).length

/-- How many pending excerpts fail to embed during a run (derived measure;
the code never computes or returns it). -/
def backfillFailureCount (embed : String → Except String (List Int)) (g : Graph) : Nat :=
  ((pendingExcerpts g).filter (fun sel => (embed sel.2).toOption.isNone)).length

/-! ## JSON and the tool façade (`contract_graphrag/contract_tools.py`) -/

/-- JSON values, as produced by `json.dumps` on the service results. -/
inductive Json where
  | null
  | bool (b : Bool)
  | num (n : Int)
  | str (s : String)
  | arr (xs : List Json)
  | obj (fields : List (String × Json))
deriving Repr

def jsonEscapeChar (c : Char) : String :=
  if c = '"' then "\\\""
  else if c = '\\' then "\\\\"
  else if c = '\n' then "\\n"
  else String.singleton c

def jsonEscape (s : String) : String :=
  s.toList.foldl (fun acc c => acc ++ jsonEscapeChar c) ""

mutual

/-- Serialization of a JSON value (the `json.dumps` output modulo
whitespace). -/
def jsonDumps : Json → String
  | .null => "null"
  | .bool true => "true"
  | .bool false => "false"
  | .num n => toString n
  | .str s => "\"" ++ jsonEscape s ++ "\""
  | .arr xs => "[" ++ jsonDumpsList xs ++ "]"
  | .obj fs => "\x7b" ++ jsonDumpsFields fs ++ "\x7d"

def jsonDumpsList : List Json → String
  | [] => ""
  | [x] => jsonDumps x
  | x :: xs => jsonDumps x ++ ", " ++ jsonDumpsList xs

def jsonDumpsFields : List (String × Json) → String
  | [] => ""
  | [f] => "\"" ++ jsonEscape f.1 ++ "\": " ++ jsonDumps f.2
  | f :: fs => "\"" ++ jsonEscape f.1 ++ "\": " ++ jsonDumps f.2 ++ ", " ++ jsonDumpsFields fs

end

def PartyDetail.toJson (p : PartyDetail) : Json :=
  .obj [("name", .str p.name), ("role", .str p.role),
        ("incorporation_country", .str p.incorporation_country),
        ("incorporation_state", .str p.incorporation_state)]

def ContractDetail.toJson (d : ContractDetail) : Json :=
  .obj [("contract_id", .num d.contract_id), ("name", .str d.name),
        ("agreement_type", .str d.agreement_type),
        ("effective_date", .str d.effective_date),
        ("expiration_date", .str d.expiration_date),
        ("renewal_term", .str d.renewal_term),
        ("parties", .arr (d.parties.map PartyDetail.toJson)),
        ("clauses", .arr (d.clauses.map (fun t => Json.obj [("clause_type", .str t)])))]

def ContractResult.toJson : ContractResult → Json
  | .error m => .obj [("error", .str m)]
  | .found d => d.toJson

def ContractSummary.toJson (s : ContractSummary) : Json :=
  .obj [("contract_id", .num s.contract_id), ("name", .str s.name),
        ("agreement_type", .str s.agreement_type),
        ("parties", .arr (s.parties.map PartyDetail.toJson))]

def SimilarRow.toJson (r : SimilarRow) : Json :=
  .obj [("contract_id", .num r.contract_id), ("agreement_name", .str r.agreement_name),
        ("clause_type", .str r.clause_type), ("excerpt", .str r.excerpt)]

def ExcerptsResult.toJson : ExcerptsResult → Json
  | .error m => .obj [("error", .str m)]
  | .found d =>
      .obj [("contract_id", .num d.contract_id), ("name", .str d.name),
            ("agreement_type", .str d.agreement_type),
            ("effective_date", .str d.effective_date),
            ("expiration_date", .str d.expiration_date),
            ("renewal_term", .str d.renewal_term),
            ("clauses", .arr (d.clauses.map (fun c =>
              Json.obj [("clause_type", .str c.1),
                        ("excerpts", .arr (c.2.map Json.str))])))]

/-- `ContractTools.get_contract`: `json.dumps(service.get_contract(id), indent=2)`. -/
def ContractTools.get_contract (g : Graph) (contract_id : Int) : String :=
  jsonDumps (ContractResult.toJson (ContractSearchService.get_contract g contract_id))

/-- `ContractTools.get_contracts_by_organization`: `json.dumps` of the
service result list. -/
def ContractTools.get_contracts_by_organization (g : Graph) (fulltextTop : Option String)
    (organization_name : String) : String :=
  jsonDumps (.arr ((ContractSearchService.get_contracts_by_organization g fulltextTop organization_name).map
    ContractSummary.toJson))

/-- `ContractTools.get_contracts_with_clause_type`: `json.dumps` of the
service result list. -/
def ContractTools.get_contracts_with_clause_type (g : Graph) (clause_type : String) : String :=
  jsonDumps (.arr ((ContractSearchService.get_contracts_with_clause_type g clause_type).map ContractSummary.toJson))

/-- `ContractTools.get_contracts_without_clause`: `json.dumps` of the service
result list. -/
def ContractTools.get_contracts_without_clause (g : Graph) (clause_type : String) : String :=
  jsonDumps (.arr ((ContractSearchService.get_contracts_without_clause g clause_type).map ContractSummary.toJson))

/-- `ContractTools.get_contracts_similar_text`: `json.dumps` of the service
result list. -/
def ContractTools.get_contracts_similar_text (g : Graph) (topNodes : List Nat) : String :=
  jsonDumps (.arr ((ContractSearchService.get_contracts_similar_text g topNodes).map SimilarRow.toJson))

/-- `ContractTools.answer_aggregation_question`: the only tool that does NOT
`json.dumps` its result — the service string is returned verbatim (and a
service exception propagates). -/
def ContractTools.answer_aggregation_question (search : Except String (List String)) :
    Except String String :=
  ContractSearchService.answer_aggregation_question search

/-- `ContractTools.get_contract_excerpts`: `json.dumps` of the service
result. -/
def ContractTools.get_contract_excerpts (g : Graph) (contract_id : Int) : String :=
  jsonDumps (ExcerptsResult.toJson (ContractSearchService.get_contract_excerpts g contract_id))

/-! ## A JSON parser, giving meaning to "the returned string parses as JSON" -/

def lbraceChar : Char := Char.ofNat 123
def rbraceChar : Char := Char.ofNat 125

def isWsChar (c : Char) : Bool := c = ' ' || c = '\n' || c = '\t' || c = '\r'

def skipWs : List Char → List Char
  | [] => []
  | c :: cs => if isWsChar c then skipWs cs else c :: cs

def parseStringBody : List Char → Option (String × List Char)
  | [] => none
  | c :: cs =>
    if c = '"' then some ("", cs)
    else if c = '\\' then
      match cs with
      | [] => none
      | e :: cs2 =>
        let d : Option Char :=
          if e = '"' then some '"'
          else if e = '\\' then some '\\'
          else if e = 'n' then some '\n'
          else none
        match d with
        | none => none
        | some d => (parseStringBody cs2).map (fun r => (String.singleton d ++ r.1, r.2))
    else (parseStringBody cs).map (fun r => (String.singleton c ++ r.1, r.2))

def takeDigits : List Char → (List Char × List Char)
  | [] => ([], [])
  | c :: cs =>
    if c.isDigit then
      let r := takeDigits cs
      (c :: r.1, r.2)
    else ([], c :: cs)

def digitsToNat (ds : List Char) : Nat :=
  ds.foldl (fun n c => n * 10 + (c.toNat - 48)) 0

mutual

def parseValue : Nat → List Char → Option (Json × List Char)
  | 0, _ => none
  | _, [] => none
  | fuel + 1, cs =>
    match skipWs cs with
    | [] => none
    | c :: rest =>
      if c = 'n' then
        match rest with
        | 'u' :: 'l' :: 'l' :: r => some (.null, r)
        | _ => none
      else if c = 't' then
        match rest with
        | 'r' :: 'u' :: 'e' :: r => some (.bool true, r)
        | _ => none
      else if c = 'f' then
        match rest with
        | 'a' :: 'l' :: 's' :: 'e' :: r => some (.bool false, r)
        | _ => none
      else if c = '"' then (parseStringBody rest).map (fun r => (.str r.1, r.2))
      else if c = '[' then
        match skipWs rest with
        | ']' :: r => some (.arr [], r)
        | cs2 => (parseElems fuel cs2).map (fun r => (.arr r.1, r.2))
      else if c = lbraceChar then
        match skipWs rest with
        | c2 :: r =>
          if c2 = rbraceChar then some (.obj [], r)
          else (parseFields fuel (c2 :: r)).map (fun r => (.obj r.1, r.2))
        | [] => none
      else if c = '-' then
        let d := takeDigits rest
        if d.1.isEmpty then none else some (.num (-(digitsToNat d.1 : Int)), d.2)
      else if c.isDigit then
        let d := takeDigits (c :: rest)
        some (.num (digitsToNat d.1), d.2)
      else none

def parseElems : Nat → List Char → Option (List Json × List Char)
  | 0, _ => none
  | fuel + 1, cs =>
    match parseValue fuel cs with
    | none => none
    | some (j, rest) =>
      match skipWs rest with
      | ',' :: r => (parseElems fuel r).map (fun t => (j :: t.1, t.2))
      | ']' :: r => some ([j], r)
      | _ => none

def parseFields : Nat → List Char → Option (List (String × Json) × List Char)
  | 0, _ => none
  | fuel + 1, cs =>
    match skipWs cs with
    | '"' :: r =>
      match parseStringBody r with
      | none => none
      | some (key, rest) =>
        match skipWs rest with
        | ':' :: r2 =>
          match parseValue fuel r2 with
          | none => none
          | some (j, rest2) =>
            match skipWs rest2 with
            | ',' :: r3 => (parseFields fuel r3).map (fun t => ((key, j) :: t.1, t.2))
            | c :: r3 => if c = rbraceChar then some ([(key, j)], r3) else none
            | [] => none
        | _ => none
    | _ => none

end

def parseJson (s : String) : Option Json :=
  match parseValue (s.length + 1) s.toList with
  | some (j, rest) => if (skipWs rest).isEmpty then some j else none
  | none => none

/-! ## Concrete data, used by the witnesses and counterexamples -/

/-- The §8 scenario record: contract 1 "MSA-001", one party, one existing
`Insurance` clause with one excerpt, one non-existing clause. -/
def sampleRecord : Agreement :=
  { contract_id := 1, agreement_name := "MSA-001", agreement_type := "Service Agreement"
    effective_date := "2024-01-01", expiration_date := "2025-01-01"
    renewal_term := "1 year", Notice_period_to_Terminate_Renewal := "30 days"
    parties := [{ role := "Vendor", name := "Acme Corp"
                  incorporation_country := "USA", incorporation_state := "Delaware" }]
    governing_law := { country := "USA", state := "New York", most_favored_country := "USA" }
    clauses := [{ clause_type := "Insurance", «exists» := true
                  excerpts := ["Vendor shall maintain insurance."] },
                { clause_type := "Non-Compete", «exists» := false
                  excerpts := ["Should be ignored."] }] }

/-- A second contract that shares an excerpt string with `sampleRecord`. -/
def sampleRecord2 : Agreement :=
  { contract_id := 2, agreement_name := "MSA-002", agreement_type := "Supply Agreement"
    effective_date := "2024-02-01", expiration_date := "2026-02-01"
    renewal_term := "", Notice_period_to_Terminate_Renewal := ""
    parties := [{ role := "Customer", name := "Beta LLC"
                  incorporation_country := "Canada", incorporation_state := "" }]
    governing_law := { country := "Canada", state := "", most_favored_country := "" }
    clauses := [{ clause_type := "Insurance", «exists» := true
                  excerpts := ["Vendor shall maintain insurance."] }] }

/-- A record with no parties (the party list of a source record may be
empty): its Agreement node has no `IS_PARTY_TO` edges. -/
def noPartyRecord : Agreement :=
  { contract_id := 1, agreement_name := "Orphan", agreement_type := "Other"
    effective_date := "", expiration_date := "", renewal_term := ""
    Notice_period_to_Terminate_Renewal := ""
    parties := []
    governing_law := { country := "USA", state := "", most_favored_country := "" }
    clauses := [{ clause_type := "Insurance", «exists» := true, excerpts := [] }] }

/-- A record that re-ingests contract_id 1 with different property values. -/
def sampleRecordAltered : Agreement :=
  { sampleRecord with agreement_name := "MSA-001-EDITED", renewal_term := "2 years" }

def sampleGraph : Graph := createGraph Graph.empty sampleRecord

def sampleGraphTwice : Graph := createGraph sampleGraph sampleRecord

def sampleGraphBoth : Graph := createGraph sampleGraph sampleRecord2


/-! ## Helper lemmas: field projections of the builder steps -/

/-- A fold preserves any projection each step preserves. -/
theorem foldl_proj_eq {α β γ : Type} (f : β → α → β) (proj : β → γ)
    (h : ∀ b a, proj (f b a) = proj b) :
    ∀ (l : List α) (b : β), proj (l.foldl f b) = proj b := by
  intro l
  induction l with
  | nil => intro b; rfl
  | cons x xs ih =>
      intro b
      rw [List.foldl_cons, ih, h]

theorem mergeAgreement_organizations (g : Graph) (a : Agreement) :
    (mergeAgreement g a).organizations = g.organizations := by
  simp [mergeAgreement, apply_ite Graph.organizations]

theorem mergeAgreement_countries (g : Graph) (a : Agreement) :
    (mergeAgreement g a).countries = g.countries := by
  simp [mergeAgreement, apply_ite Graph.countries]

theorem mergeAgreement_contractClauses (g : Graph) (a : Agreement) :
    (mergeAgreement g a).contractClauses = g.contractClauses := by
  simp [mergeAgreement, apply_ite Graph.contractClauses]

theorem mergeAgreement_excerpts (g : Graph) (a : Agreement) :
    (mergeAgreement g a).excerpts = g.excerpts := by
  simp [mergeAgreement, apply_ite Graph.excerpts]

theorem mergeAgreement_clauseTypes (g : Graph) (a : Agreement) :
    (mergeAgreement g a).clauseTypes = g.clauseTypes := by
  simp [mergeAgreement, apply_ite Graph.clauseTypes]

theorem mergeAgreement_governed_by_law (g : Graph) (a : Agreement) :
    (mergeAgreement g a).governed_by_law = g.governed_by_law := by
  simp [mergeAgreement, apply_ite Graph.governed_by_law]

theorem mergeAgreement_is_party_to (g : Graph) (a : Agreement) :
    (mergeAgreement g a).is_party_to = g.is_party_to := by
  simp [mergeAgreement, apply_ite Graph.is_party_to]

theorem mergeAgreement_incorporated_in (g : Graph) (a : Agreement) :
    (mergeAgreement g a).incorporated_in = g.incorporated_in := by
  simp [mergeAgreement, apply_ite Graph.incorporated_in]

theorem mergeAgreement_has_clause (g : Graph) (a : Agreement) :
    (mergeAgreement g a).has_clause = g.has_clause := by
  simp [mergeAgreement, apply_ite Graph.has_clause]

theorem mergeAgreement_has_excerpt (g : Graph) (a : Agreement) :
    (mergeAgreement g a).has_excerpt = g.has_excerpt := by
  simp [mergeAgreement, apply_ite Graph.has_excerpt]

theorem mergeAgreement_has_type (g : Graph) (a : Agreement) :
    (mergeAgreement g a).has_type = g.has_type := by
  simp [mergeAgreement, apply_ite Graph.has_type]

theorem mergeAgreement_nextId (g : Graph) (a : Agreement) :
    (mergeAgreement g a).nextId = g.nextId := by
  simp [mergeAgreement, apply_ite Graph.nextId]

theorem mergeGovernedByLaw_agreements (g : Graph) (cid : Int) (gl : GoverningLaw) :
    (mergeGovernedByLaw g cid gl).agreements = g.agreements := by
  simp [mergeGovernedByLaw, apply_ite Graph.agreements]

theorem mergeGovernedByLaw_organizations (g : Graph) (cid : Int) (gl : GoverningLaw) :
    (mergeGovernedByLaw g cid gl).organizations = g.organizations := by
  simp [mergeGovernedByLaw, apply_ite Graph.organizations]

theorem mergeGovernedByLaw_contractClauses (g : Graph) (cid : Int) (gl : GoverningLaw) :
    (mergeGovernedByLaw g cid gl).contractClauses = g.contractClauses := by
  simp [mergeGovernedByLaw, apply_ite Graph.contractClauses]

theorem mergeGovernedByLaw_excerpts (g : Graph) (cid : Int) (gl : GoverningLaw) :
    (mergeGovernedByLaw g cid gl).excerpts = g.excerpts := by
  simp [mergeGovernedByLaw, apply_ite Graph.excerpts]

theorem mergeGovernedByLaw_clauseTypes (g : Graph) (cid : Int) (gl : GoverningLaw) :
    (mergeGovernedByLaw g cid gl).clauseTypes = g.clauseTypes := by
  simp [mergeGovernedByLaw, apply_ite Graph.clauseTypes]

theorem mergeGovernedByLaw_is_party_to (g : Graph) (cid : Int) (gl : GoverningLaw) :
    (mergeGovernedByLaw g cid gl).is_party_to = g.is_party_to := by
  simp [mergeGovernedByLaw, apply_ite Graph.is_party_to]

theorem mergeGovernedByLaw_incorporated_in (g : Graph) (cid : Int) (gl : GoverningLaw) :
    (mergeGovernedByLaw g cid gl).incorporated_in = g.incorporated_in := by
  simp [mergeGovernedByLaw, apply_ite Graph.incorporated_in]

theorem mergeGovernedByLaw_has_clause (g : Graph) (cid : Int) (gl : GoverningLaw) :
    (mergeGovernedByLaw g cid gl).has_clause = g.has_clause := by
  simp [mergeGovernedByLaw, apply_ite Graph.has_clause]

theorem mergeGovernedByLaw_has_excerpt (g : Graph) (cid : Int) (gl : GoverningLaw) :
    (mergeGovernedByLaw g cid gl).has_excerpt = g.has_excerpt := by
  simp [mergeGovernedByLaw, apply_ite Graph.has_excerpt]

theorem mergeGovernedByLaw_has_type (g : Graph) (cid : Int) (gl : GoverningLaw) :
    (mergeGovernedByLaw g cid gl).has_type = g.has_type := by
  simp [mergeGovernedByLaw, apply_ite Graph.has_type]

theorem mergeGovernedByLaw_nextId (g : Graph) (cid : Int) (gl : GoverningLaw) :
    (mergeGovernedByLaw g cid gl).nextId = g.nextId := by
  simp [mergeGovernedByLaw, apply_ite Graph.nextId]

theorem mergeExcerpt_agreements (cl : Nat) (g : Graph) (t : String) :
    (mergeExcerpt cl g t).agreements = g.agreements := by
  simp [mergeExcerpt, apply_ite Graph.agreements]

theorem mergeExcerpt_organizations (cl : Nat) (g : Graph) (t : String) :
    (mergeExcerpt cl g t).organizations = g.organizations := by
  simp [mergeExcerpt, apply_ite Graph.organizations]

theorem mergeExcerpt_countries (cl : Nat) (g : Graph) (t : String) :
    (mergeExcerpt cl g t).countries = g.countries := by
  simp [mergeExcerpt, apply_ite Graph.countries]

theorem mergeExcerpt_contractClauses (cl : Nat) (g : Graph) (t : String) :
    (mergeExcerpt cl g t).contractClauses = g.contractClauses := by
  simp [mergeExcerpt, apply_ite Graph.contractClauses]

theorem mergeExcerpt_clauseTypes (cl : Nat) (g : Graph) (t : String) :
    (mergeExcerpt cl g t).clauseTypes = g.clauseTypes := by
  simp [mergeExcerpt, apply_ite Graph.clauseTypes]

theorem mergeExcerpt_governed_by_law (cl : Nat) (g : Graph) (t : String) :
    (mergeExcerpt cl g t).governed_by_law = g.governed_by_law := by
  simp [mergeExcerpt, apply_ite Graph.governed_by_law]

theorem mergeExcerpt_is_party_to (cl : Nat) (g : Graph) (t : String) :
    (mergeExcerpt cl g t).is_party_to = g.is_party_to := by
  simp [mergeExcerpt, apply_ite Graph.is_party_to]

theorem mergeExcerpt_incorporated_in (cl : Nat) (g : Graph) (t : String) :
    (mergeExcerpt cl g t).incorporated_in = g.incorporated_in := by
  simp [mergeExcerpt, apply_ite Graph.incorporated_in]

theorem mergeExcerpt_has_clause (cl : Nat) (g : Graph) (t : String) :
    (mergeExcerpt cl g t).has_clause = g.has_clause := by
  simp [mergeExcerpt, apply_ite Graph.has_clause]

theorem mergeExcerpt_has_type (cl : Nat) (g : Graph) (t : String) :
    (mergeExcerpt cl g t).has_type = g.has_type := by
  simp [mergeExcerpt, apply_ite Graph.has_type]

theorem mergeParty_agreements (cid : Int) (g : Graph) (p : Party) :
    (mergeParty cid g p).agreements = g.agreements := by
  simp [mergeParty, apply_ite Graph.agreements]

theorem mergeParty_contractClauses (cid : Int) (g : Graph) (p : Party) :
    (mergeParty cid g p).contractClauses = g.contractClauses := by
  simp [mergeParty, apply_ite Graph.contractClauses]

theorem mergeParty_excerpts (cid : Int) (g : Graph) (p : Party) :
    (mergeParty cid g p).excerpts = g.excerpts := by
  simp [mergeParty, apply_ite Graph.excerpts]

theorem mergeParty_clauseTypes (cid : Int) (g : Graph) (p : Party) :
    (mergeParty cid g p).clauseTypes = g.clauseTypes := by
  simp [mergeParty, apply_ite Graph.clauseTypes]

theorem mergeParty_governed_by_law (cid : Int) (g : Graph) (p : Party) :
    (mergeParty cid g p).governed_by_law = g.governed_by_law := by
  simp [mergeParty, apply_ite Graph.governed_by_law]

theorem mergeParty_has_clause (cid : Int) (g : Graph) (p : Party) :
    (mergeParty cid g p).has_clause = g.has_clause := by
  simp [mergeParty, apply_ite Graph.has_clause]

theorem mergeParty_has_excerpt (cid : Int) (g : Graph) (p : Party) :
    (mergeParty cid g p).has_excerpt = g.has_excerpt := by
  simp [mergeParty, apply_ite Graph.has_excerpt]

theorem mergeParty_has_type (cid : Int) (g : Graph) (p : Party) :
    (mergeParty cid g p).has_type = g.has_type := by
  simp [mergeParty, apply_ite Graph.has_type]

theorem mergeParty_nextId (cid : Int) (g : Graph) (p : Party) :
    (mergeParty cid g p).nextId = g.nextId := by
  simp [mergeParty, apply_ite Graph.nextId]

theorem createClause_agreements (cid : Int) (g : Graph) (c : ClauseRecord) :
    (createClause cid g c).agreements = g.agreements := by
  have hm : ∀ (cl : Nat) (h : Graph) (ts : List String),
      (ts.foldl (mergeExcerpt cl) h).agreements = h.agreements :=
    fun cl h ts => foldl_proj_eq _ _ (fun b a => mergeExcerpt_agreements cl b a) ts h
  simp [createClause, mergeHasClause, mergeHasType, hm, apply_ite Graph.agreements]

theorem createClause_organizations (cid : Int) (g : Graph) (c : ClauseRecord) :
    (createClause cid g c).organizations = g.organizations := by
  have hm : ∀ (cl : Nat) (h : Graph) (ts : List String),
      (ts.foldl (mergeExcerpt cl) h).organizations = h.organizations :=
    fun cl h ts => foldl_proj_eq _ _ (fun b a => mergeExcerpt_organizations cl b a) ts h
  simp [createClause, mergeHasClause, mergeHasType, hm, apply_ite Graph.organizations]

theorem createClause_countries (cid : Int) (g : Graph) (c : ClauseRecord) :
    (createClause cid g c).countries = g.countries := by
  have hm : ∀ (cl : Nat) (h : Graph) (ts : List String),
      (ts.foldl (mergeExcerpt cl) h).countries = h.countries :=
    fun cl h ts => foldl_proj_eq _ _ (fun b a => mergeExcerpt_countries cl b a) ts h
  simp [createClause, mergeHasClause, mergeHasType, hm, apply_ite Graph.countries]

theorem createClause_governed_by_law (cid : Int) (g : Graph) (c : ClauseRecord) :
    (createClause cid g c).governed_by_law = g.governed_by_law := by
  have hm : ∀ (cl : Nat) (h : Graph) (ts : List String),
      (ts.foldl (mergeExcerpt cl) h).governed_by_law = h.governed_by_law :=
    fun cl h ts => foldl_proj_eq _ _ (fun b a => mergeExcerpt_governed_by_law cl b a) ts h
  simp [createClause, mergeHasClause, mergeHasType, hm, apply_ite Graph.governed_by_law]

theorem createClause_is_party_to (cid : Int) (g : Graph) (c : ClauseRecord) :
    (createClause cid g c).is_party_to = g.is_party_to := by
  have hm : ∀ (cl : Nat) (h : Graph) (ts : List String),
      (ts.foldl (mergeExcerpt cl) h).is_party_to = h.is_party_to :=
    fun cl h ts => foldl_proj_eq _ _ (fun b a => mergeExcerpt_is_party_to cl b a) ts h
  simp [createClause, mergeHasClause, mergeHasType, hm, apply_ite Graph.is_party_to]

theorem createClause_incorporated_in (cid : Int) (g : Graph) (c : ClauseRecord) :
    (createClause cid g c).incorporated_in = g.incorporated_in := by
  have hm : ∀ (cl : Nat) (h : Graph) (ts : List String),
      (ts.foldl (mergeExcerpt cl) h).incorporated_in = h.incorporated_in :=
    fun cl h ts => foldl_proj_eq _ _ (fun b a => mergeExcerpt_incorporated_in cl b a) ts h
  simp [createClause, mergeHasClause, mergeHasType, hm, apply_ite Graph.incorporated_in]

/-! ## Lemmas about lookups -/

theorem lookupAgreement_present {g : Graph} {cid : Int} {props : AgreementProps}
    (h : lookupAgreement g cid = some props) : agreementPresent g cid = true := by
  unfold lookupAgreement at h
  unfold agreementPresent
  rcases hf : g.agreements.find? (fun p => p.1 == cid) with _ | p
  · rw [hf] at h; simp at h
  · have hmem := List.mem_of_find?_eq_some hf
    have hp := List.find?_some hf
    exact List.any_eq_true.mpr ⟨p, hmem, hp⟩

theorem mergeAgreement_of_present {g : Graph} {a : Agreement}
    (h : agreementPresent g a.contract_id = true) : mergeAgreement g a = g := by
  simp [mergeAgreement, h]

theorem lookupAgreement_congr {g g' : Graph} (cid : Int)
    (h : g'.agreements = g.agreements) : lookupAgreement g' cid = lookupAgreement g cid := by
  unfold lookupAgreement
  rw [h]

theorem createGraph_agreements_of_present {g : Graph} {a : Agreement}
    (h : agreementPresent g a.contract_id = true) :
    (createGraph g a).agreements = g.agreements := by
  unfold createGraph
  rw [foldl_proj_eq _ _ (fun b c => createClause_agreements a.contract_id b c),
      foldl_proj_eq _ _ (fun b p => mergeParty_agreements a.contract_id b p),
      mergeGovernedByLaw_agreements, mergeAgreement_of_present h]

/-! ## Claim C4: Agreement properties are written only on first creation -/

/-- **C4.**  Re-ingesting a record whose `contract_id` already has an
`Agreement` node leaves the node's properties exactly as they were: the
`ON CREATE SET` block does not run on a matched node, and no other part of
`CREATE_GRAPH_QUERY` writes to the Agreement node. -/
theorem agreement_props_immutable_on_reingest (g : Graph) (a : Agreement)
    (props : AgreementProps) (h : lookupAgreement g a.contract_id = some props) :
    lookupAgreement (createGraph g a) a.contract_id = some props := by
  rw [lookupAgreement_congr a.contract_id
        (createGraph_agreements_of_present (lookupAgreement_present h))]
  exact h

/-- Witness for C4: contract 1 is re-ingested with an edited name and renewal
term, and keeps its original properties. -/
theorem agreement_props_immutable_on_reingest_witness :
    lookupAgreement sampleGraph sampleRecordAltered.contract_id = some
      { name := "MSA-001", effective_date := "2024-01-01", expiration_date := "2025-01-01"
        agreement_type := "Service Agreement", renewal_term := "1 year"
        most_favored_country := "USA", Notice_period_to_Terminate_Renewal := "30 days" } ∧
    lookupAgreement (createGraph sampleGraph sampleRecordAltered) sampleRecordAltered.contract_id
      = some
      { name := "MSA-001", effective_date := "2024-01-01", expiration_date := "2025-01-01"
        agreement_type := "Service Agreement", renewal_term := "1 year"
        most_favored_country := "USA", Notice_period_to_Terminate_Renewal := "30 days" } :=
  ⟨by rfl, agreement_props_immutable_on_reingest sampleGraph sampleRecordAltered _ (by rfl)⟩

/-! ## Claim C3: the aggregation strategy and failures -/

/-- **C3, counterexample.**  A failure raised by the text-to-Cypher
translation (or by executing the generated query) propagates to the caller of
`answer_aggregation_question`: the method body has no handler, so the result
is never a textual answer. -/
theorem answer_aggregation_propagates_failure :
    ContractSearchService.answer_aggregation_question (.error "translation failed")
      = .error "translation failed" ∧
    ¬ ∃ answer, ContractSearchService.answer_aggregation_question (.error "translation failed")
      = .ok answer := by
  constructor
  · rfl
  · rintro ⟨answer, h⟩
    simp [ContractSearchService.answer_aggregation_question] at h

theorem aggregationAnswer_of_all_blank :
    ∀ (items : List String) (acc : String), (∀ c ∈ items, c = "") →
      items.foldl (fun acc content => if content ≠ "" then acc ++ content ++ "\n\n" else acc) acc
        = acc := by
  intro items
  induction items with
  | nil => intro acc _; rfl
  | cons x xs ih =>
      intro acc h
      have hx : x = "" := h x (by simp)
      rw [List.foldl_cons]
      simp only [hx]
      simpa using ih acc (fun c hc => h c (by simp [hc]))

/-- **C3, amended.**  When the translated query executes, the method returns
the blank-line-joined row strings; when it yields no rows (or only empty
strings) the result is exactly `"No results found."`; a translation or
execution failure propagates to the caller unhandled. -/
theorem answer_aggregation_amended :
    (∀ items, ContractSearchService.answer_aggregation_question (.ok items)
        = .ok (aggregationAnswer items)) ∧
    (∀ items, (∀ c ∈ items, c = "") →
      ContractSearchService.answer_aggregation_question (.ok items) = .ok "No results found.") ∧
    (∀ e, ContractSearchService.answer_aggregation_question (.error e) = .error e) := by
  refine ⟨fun items => rfl, ?_, fun e => rfl⟩
  intro items h
  show Except.ok (aggregationAnswer items) = .ok "No results found."
  simp only [aggregationAnswer]
  rw [aggregationAnswer_of_all_blank items "" h]
  simp

/-- Witness for C3's amended statement. -/
theorem answer_aggregation_amended_witness :
    ContractSearchService.answer_aggregation_question (.ok ["row1"]) = .ok "row1\n\n" ∧
    ContractSearchService.answer_aggregation_question (.ok ["", ""]) = .ok "No results found." ∧
    ContractSearchService.answer_aggregation_question (.error "boom") = .error "boom" :=
  ⟨answer_aggregation_amended.1 ["row1"],
   answer_aggregation_amended.2.1 ["", ""] (by simp),
   answer_aggregation_amended.2.2 "boom"⟩

/-! ## Claim C8: validation and not-found behavior of the exact lookups -/

/-- **C8.**  `get_contract` and `get_contract_excerpts` reject a non-positive
id with the validation error before touching the graph (the result does not
depend on the graph at all), and return the structured not-found result for a
positive id with no matching Agreement node; no failure is raised in either
case (the functions are total). -/
theorem get_contract_validation_and_not_found (g g' : Graph) (cid : Int) :
    (cid ≤ 0 →
      ContractSearchService.get_contract g cid = .error "Contract ID must be positive" ∧
      ContractSearchService.get_contract_excerpts g cid
        = .error "Contract ID must be positive" ∧
      ContractSearchService.get_contract g cid = ContractSearchService.get_contract g' cid ∧
      ContractSearchService.get_contract_excerpts g cid
        = ContractSearchService.get_contract_excerpts g' cid) ∧
    (0 < cid → lookupAgreement g cid = none →
      ContractSearchService.get_contract g cid
        = .error ("Contract " ++ toString cid ++ " not found") ∧
      ContractSearchService.get_contract_excerpts g cid
        = .error ("Contract " ++ toString cid ++ " not found")) := by
  constructor
  · intro h
    refine ⟨?_, ?_, ?_, ?_⟩ <;>
      simp [ContractSearchService.get_contract, ContractSearchService.get_contract_excerpts, h]
  · intro hpos hnone
    have h0 : ¬ cid ≤ 0 := not_le.mpr hpos
    constructor <;>
      simp [ContractSearchService.get_contract, ContractSearchService.get_contract_excerpts,
            h0, hnone]

/-- Witness for C8: id 0 is rejected on any graph; id 5 is not present in the
sample graph. -/
theorem get_contract_validation_and_not_found_witness :
    ContractSearchService.get_contract Graph.empty 0 = .error "Contract ID must be positive" ∧
    ContractSearchService.get_contract sampleGraph 5 = .error "Contract 5 not found" :=
  ⟨((get_contract_validation_and_not_found Graph.empty sampleGraph 0).1 (by norm_num)).1,
   ((get_contract_validation_and_not_found sampleGraph sampleGraph 5).2 (by norm_num) (by rfl)).1⟩

/-! ## Claim C10: `get_contract` silently requires a clause and a party -/

/-- **C10.**  For a positive id whose Agreement node exists, `get_contract`
returns the full detail exactly when the agreement has at least one
`HAS_CLAUSE` row and at least one (party `IS_PARTY_TO`, `INCORPORATED_IN`
country) row; otherwise it returns the same not-found error as for a missing
id (both `MATCH` clauses are non-optional, so an empty sub-pattern empties
the whole result). -/
theorem get_contract_requires_clause_and_party (g : Graph) (cid : Int)
    (props : AgreementProps) (hpos : 0 < cid) (hfound : lookupAgreement g cid = some props) :
    (((clauseRows g cid).isEmpty || (partyRows g cid).isEmpty) = true →
      ContractSearchService.get_contract g cid
        = .error ("Contract " ++ toString cid ++ " not found")) ∧
    (((clauseRows g cid).isEmpty || (partyRows g cid).isEmpty) = false →
      ContractSearchService.get_contract g cid = .found
        { contract_id := cid, name := props.name, agreement_type := props.agreement_type
          effective_date := props.effective_date, expiration_date := props.expiration_date
          renewal_term := props.renewal_term
          parties := partyRows g cid, clauses := clauseRows g cid }) := by
  have h0 : ¬ cid ≤ 0 := not_le.mpr hpos
  constructor <;> intro hcond <;>
    simp [ContractSearchService.get_contract, h0, hfound, hcond]

/-- Witness for C10: contract 1 of the sample graph has a clause and a party
and is returned in full; the party-less contract of `noPartyRecord` has a
clause but no party row and gets the not-found error. -/
theorem get_contract_requires_clause_and_party_witness :
    ContractSearchService.get_contract sampleGraph 1 = .found
      { contract_id := 1, name := "MSA-001", agreement_type := "Service Agreement"
        effective_date := "2024-01-01", expiration_date := "2025-01-01"
        renewal_term := "1 year"
        parties := [{ name := "Acme Corp", role := "Vendor"
                      incorporation_country := "USA", incorporation_state := "Delaware" }]
        clauses := ["Insurance"] } ∧
    ContractSearchService.get_contract (createGraph Graph.empty noPartyRecord) 1
      = .error ("Contract 1 not found") :=
  ⟨(get_contract_requires_clause_and_party sampleGraph 1
      { name := "MSA-001", effective_date := "2024-01-01", expiration_date := "2025-01-01"
        agreement_type := "Service Agreement", renewal_term := "1 year"
        most_favored_country := "USA", Notice_period_to_Terminate_Renewal := "30 days" }
      (by norm_num) (by rfl)).2 (by rfl),
   (get_contract_requires_clause_and_party (createGraph Graph.empty noPartyRecord) 1
      { name := "Orphan", effective_date := "", expiration_date := ""
        agreement_type := "Other", renewal_term := ""
        most_favored_country := "", Notice_period_to_Terminate_Renewal := "" }
      (by norm_num) (by rfl)).1 (by rfl)⟩

/-! ## Claim C9: tool façade output encoding -/

/-- **C9, counterexample.**  `ContractTools.answer_aggregation_question`
returns the service's plain-text answer verbatim; on an empty result set that
string is `"No results found."`, which does not parse as JSON. -/
theorem aggregation_tool_output_not_json :
    ContractTools.answer_aggregation_question (.ok []) = .ok "No results found." ∧
    parseJson "No results found." = none :=
  ⟨rfl, rfl⟩

set_option maxRecDepth 4000 in
/-- **C9, amended.**  Six of the seven tool operations return the
`json.dumps` serialization of a JSON value (hence a string that parses as
JSON, witnessed concretely in the last conjunct), while
`answer_aggregation_question` passes the service's plain string through with
no JSON encoding. -/
theorem tools_return_json_except_aggregation :
    (∀ g cid, ∃ j, ContractTools.get_contract g cid = jsonDumps j) ∧
    (∀ g top name, ∃ j,
      ContractTools.get_contracts_by_organization g top name = jsonDumps j) ∧
    (∀ g t, ∃ j, ContractTools.get_contracts_with_clause_type g t = jsonDumps j) ∧
    (∀ g t, ∃ j, ContractTools.get_contracts_without_clause g t = jsonDumps j) ∧
    (∀ g tops, ∃ j, ContractTools.get_contracts_similar_text g tops = jsonDumps j) ∧
    (∀ g cid, ∃ j, ContractTools.get_contract_excerpts g cid = jsonDumps j) ∧
    (∀ s, ContractTools.answer_aggregation_question s
      = ContractSearchService.answer_aggregation_question s) ∧
    parseJson (ContractTools.get_contract sampleGraph 1)
      = some (ContractResult.toJson (ContractSearchService.get_contract sampleGraph 1)) ∧
    parseJson (ContractTools.get_contract Graph.empty 0)
      = some (Json.obj [("error", Json.str "Contract ID must be positive")]) :=
  ⟨fun _ _ => ⟨_, rfl⟩, fun _ _ _ => ⟨_, rfl⟩, fun _ _ => ⟨_, rfl⟩,
   fun _ _ => ⟨_, rfl⟩, fun _ _ => ⟨_, rfl⟩, fun _ _ => ⟨_, rfl⟩,
   fun _ => rfl, rfl, rfl⟩

/-! ## Claim C5: clause presence/absence partition -/

/-- **C5, counterexample.**  An Agreement with no parties (a record whose
party list is empty) is returned by neither query — both append a
non-optional party `MATCH` — so the union of the two result sets misses it
and is not the set of all Agreements. -/
theorem clause_partition_misses_partyless_agreement :
    ContractSearchService.get_contracts_with_clause_type
      (createGraph Graph.empty noPartyRecord) "Insurance" = [] ∧
    ContractSearchService.get_contracts_without_clause
      (createGraph Graph.empty noPartyRecord) "Insurance" = [] ∧
    (createGraph Graph.empty noPartyRecord).agreements.length = 1 :=
  ⟨rfl, rfl, rfl⟩

/-- **C5, amended.**  For every clause type the two result sets are disjoint,
and their union is exactly the set of Agreements that have at least one
(party `IS_PARTY_TO`, party `INCORPORATED_IN` country) row — Agreements
without such a row appear in neither result. -/
theorem clause_partition_amended (g : Graph) (t : String) (cid : Int) :
    ¬(cid ∈ (ContractSearchService.get_contracts_with_clause_type g t).map
          (fun s => s.contract_id) ∧
      cid ∈ (ContractSearchService.get_contracts_without_clause g t).map
          (fun s => s.contract_id)) ∧
    ((cid ∈ (ContractSearchService.get_contracts_with_clause_type g t).map
          (fun s => s.contract_id) ∨
      cid ∈ (ContractSearchService.get_contracts_without_clause g t).map
          (fun s => s.contract_id)) ↔
      ∃ props, (cid, props) ∈ g.agreements ∧ (partyRows g cid).isEmpty = false) := by
  unfold ContractSearchService.get_contracts_with_clause_type
  unfold ContractSearchService.get_contracts_without_clause
  simp only [List.map_map, List.mem_map, Function.comp, List.mem_filter, summarize]
  constructor
  · rintro ⟨⟨a1, ⟨hm1, hp1⟩, he1⟩, ⟨a2, ⟨hm2, hp2⟩, he2⟩⟩
    simp only [Bool.and_eq_true, Bool.not_eq_true'] at hp1 hp2
    rw [he1] at hp1
    rw [he2] at hp2
    rw [hp1.1] at hp2
    exact absurd hp2.1 (by simp)
  · constructor
    · rintro (⟨a, ⟨hm, hp⟩, he⟩ | ⟨a, ⟨hm, hp⟩, he⟩) <;>
      · simp only [Bool.and_eq_true, Bool.not_eq_true'] at hp
        rw [he] at hp
        refine ⟨a.2, ?_, by simpa using hp.2⟩
        have : a = (cid, a.2) := by
          cases a; simp at he ⊢; exact he
        rw [← this]; exact hm
    · rintro ⟨props, hm, hp⟩
      by_cases hc : hasClauseOfType g cid t = true
      · left
        exact ⟨(cid, props), ⟨hm, by simp [hc, hp]⟩, rfl⟩
      · right
        refine ⟨(cid, props), ⟨hm, ?_⟩, rfl⟩
        simp only [Bool.not_eq_true] at hc
        simp [hc, hp]

/-! ## Counting machinery for the builder -/

def distinctCount (l : List String) : Nat := (l.foldl insertIfAbsent []).length

def excerptTotal (a : Agreement) : Nat :=
  ((validClauses a).map (fun c => distinctCount c.excerpts)).sum

def hasClauseCountFrom (g : Graph) (cid : Int) : Nat :=
  (g.has_clause.filter (fun e => e.1 == cid)).length

theorem contains_iff_mem (xs : List String) (x : String) : xs.contains x = true ↔ x ∈ xs := by
  simp [List.contains, List.elem_iff]

theorem mem_insertIfAbsent_self (xs : List String) (x : String) : x ∈ insertIfAbsent xs x := by
  unfold insertIfAbsent
  split
  · exact (contains_iff_mem xs x).mp (by assumption)
  · simp

theorem mem_insertIfAbsent_of_mem {xs : List String} {x : String} (y : String)
    (h : x ∈ xs) : x ∈ insertIfAbsent xs y := by
  unfold insertIfAbsent
  split
  · exact h
  · simp [h]

theorem insertIfAbsent_of_mem {xs : List String} {x : String} (h : x ∈ xs) :
    insertIfAbsent xs x = xs := by
  unfold insertIfAbsent
  rw [if_pos ((contains_iff_mem xs x).mpr h)]

theorem mem_insertIfAbsent_iff (xs : List String) (x y : String) :
    y ∈ insertIfAbsent xs x ↔ y ∈ xs ∨ y = x := by
  unfold insertIfAbsent
  split
  · rename_i h
    constructor
    · exact Or.inl
    · rintro (hy | rfl)
      · exact hy
      · exact (contains_iff_mem xs y).mp h
  · simp

theorem length_insertIfAbsent (xs : List String) (x : String) :
    (insertIfAbsent xs x).length = if x ∈ xs then xs.length else xs.length + 1 := by
  unfold insertIfAbsent
  by_cases h : x ∈ xs
  · rw [if_pos ((contains_iff_mem xs x).mpr h), if_pos h]
  · rw [if_neg (fun hc => h ((contains_iff_mem xs x).mp hc)), if_neg h]
    simp

/-- After creating a fresh `Excerpt` node and its `HAS_EXCERPT` edge, the
pattern `(cl)-[:HAS_EXCERPT]->(:Excerpt {text: t'})` matches exactly when it
matched before or the new node's text is `t'` (the id bounds rule out any
confusion between the fresh node and existing ones). -/
theorem excerptLinked_create (g : Graph) (cl : Nat) (t t' : String)
    (hexc : ∀ e ∈ g.excerpts, e.id < g.nextId)
    (hhe : ∀ he ∈ g.has_excerpt, he.1 < g.nextId ∧ he.2 < g.nextId) :
    excerptLinked
      { g with excerpts := g.excerpts ++ [{ id := g.nextId, text := t, embedding := none }]
               has_excerpt := g.has_excerpt ++ [(cl, g.nextId)]
               nextId := g.nextId + 1 } cl t' = true
      ↔ (excerptLinked g cl t' = true ∨ t = t') := by
  unfold excerptLinked
  simp only [List.any_append, List.any_cons, List.any_nil, Bool.or_eq_true,
             Bool.and_eq_true, List.any_eq_true, beq_iff_eq, Bool.or_false]
  constructor
  · rintro (⟨he, hmem, hcl, (⟨e, hemem, heid, htext⟩ | ⟨heid, htext⟩)⟩ |
            ⟨hcl, (⟨e, hemem, heid, htext⟩ | ⟨heid, htext⟩)⟩)
    · exact Or.inl ⟨he, hmem, hcl, e, hemem, heid, htext⟩
    · exact absurd heid (Nat.ne_of_gt (hhe he hmem).2)
    · exact absurd heid (Nat.ne_of_lt (hexc e hemem))
    · exact Or.inr htext
  · rintro (⟨he, hmem, hcl, e, hemem, heid, htext⟩ | rfl)
    · exact Or.inl ⟨he, hmem, hcl, Or.inl ⟨e, hemem, heid, htext⟩⟩
    · exact Or.inr ⟨trivial, Or.inr ⟨trivial, rfl⟩⟩

theorem mergeExcerpt_analysis (cl : Nat) (g : Graph) (t : String)
    (hb : g.IdsBounded) (hcl : cl < g.nextId) :
    (mergeExcerpt cl g t).IdsBounded ∧
    cl < (mergeExcerpt cl g t).nextId ∧
    (∀ t', excerptLinked (mergeExcerpt cl g t) cl t' = true ↔
      (excerptLinked g cl t' = true ∨ t = t')) ∧
    (mergeExcerpt cl g t).excerpts.length
      = g.excerpts.length + (if excerptLinked g cl t = true then 0 else 1) ∧
    (mergeExcerpt cl g t).has_excerpt.length
      = g.has_excerpt.length + (if excerptLinked g cl t = true then 0 else 1) := by
  obtain ⟨hcc, hexc, hhc, hhe, hht⟩ := hb
  by_cases hl : excerptLinked g cl t = true
  · have hg : mergeExcerpt cl g t = g := by
      unfold mergeExcerpt
      rw [if_pos hl]
    rw [hg, if_pos hl]
    refine ⟨⟨hcc, hexc, hhc, hhe, hht⟩, hcl, ?_, rfl, rfl⟩
    intro t'
    constructor
    · exact Or.inl
    · rintro (h | rfl)
      · exact h
      · exact hl
  · have hg : mergeExcerpt cl g t =
        { g with excerpts := g.excerpts ++ [{ id := g.nextId, text := t, embedding := none }]
                 has_excerpt := g.has_excerpt ++ [(cl, g.nextId)]
                 nextId := g.nextId + 1 } := by
      unfold mergeExcerpt
      rw [if_neg hl]
    rw [hg, if_neg hl]
    refine ⟨⟨?_, ?_, ?_, ?_, ?_⟩, Nat.lt_succ_of_lt hcl, ?_, by simp, by simp⟩
    · intro c hc
      exact Nat.lt_succ_of_lt (hcc c hc)
    · intro e he
      rcases List.mem_append.mp he with h | h
      · exact Nat.lt_succ_of_lt (hexc e h)
      · simp at h
        rw [h]
        exact Nat.lt_succ_self _
    · intro e he
      exact Nat.lt_succ_of_lt (hhc e he)
    · intro e he
      rcases List.mem_append.mp he with h | h
      · exact ⟨Nat.lt_succ_of_lt (hhe e h).1, Nat.lt_succ_of_lt (hhe e h).2⟩
      · simp at h
        rw [h]
        exact ⟨Nat.lt_succ_of_lt hcl, Nat.lt_succ_self _⟩
    · intro e he
      exact Nat.lt_succ_of_lt (hht e he)
    · intro t'
      exact excerptLinked_create g cl t t' hexc hhe

/-- Folding the excerpt merges of one clause node: node and edge counts grow
by the number of texts not yet linked, the id bounds are maintained, and the
set of linked texts tracks `insertIfAbsent` on the `seen` accumulator. -/
theorem excerptFold_counts (cl : Nat) :
    ∀ (ts : List String) (g : Graph) (seen : List String),
      g.IdsBounded → cl < g.nextId →
      (∀ t, excerptLinked g cl t = true ↔ t ∈ seen) →
      (ts.foldl (mergeExcerpt cl) g).excerpts.length + seen.length
          = g.excerpts.length + (ts.foldl insertIfAbsent seen).length ∧
      (ts.foldl (mergeExcerpt cl) g).has_excerpt.length + seen.length
          = g.has_excerpt.length + (ts.foldl insertIfAbsent seen).length ∧
      (ts.foldl (mergeExcerpt cl) g).IdsBounded ∧
      cl < (ts.foldl (mergeExcerpt cl) g).nextId := by
  intro ts
  induction ts with
  | nil =>
      intro g seen hb hcl _
      exact ⟨by simp, by simp, hb, hcl⟩
  | cons t ts ih =>
      intro g seen hb hcl hinv
      obtain ⟨hb', hcl', hlink', hlen1, hlen2⟩ := mergeExcerpt_analysis cl g t hb hcl
      have hinv' : ∀ t', excerptLinked (mergeExcerpt cl g t) cl t' = true
          ↔ t' ∈ insertIfAbsent seen t := by
        intro t'
        rw [hlink' t', mem_insertIfAbsent_iff, hinv t']
        constructor
        · rintro (h | rfl)
          · exact Or.inl h
          · exact Or.inr rfl
        · rintro (h | rfl)
          · exact Or.inl h
          · exact Or.inr rfl
      obtain ⟨ih1, ih2, ih3, ih4⟩ := ih (mergeExcerpt cl g t) (insertIfAbsent seen t) hb' hcl' hinv'
      have hseen : (insertIfAbsent seen t).length
          = seen.length + (if excerptLinked g cl t = true then 0 else 1) := by
        rw [length_insertIfAbsent]
        by_cases hm : t ∈ seen
        · rw [if_pos hm, if_pos ((hinv t).mpr hm)]
          omega
        · rw [if_neg hm, if_neg (fun hc => hm ((hinv t).mp hc))]
      rw [List.foldl_cons, List.foldl_cons]
      refine ⟨?_, ?_, ih3, ih4⟩
      · omega
      · omega

theorem hasClauseEdge_fresh (g : Graph) (cid : Int) (cl : Nat)
    (h : ∀ e ∈ g.has_clause, e.2.1 < cl) : hasClauseEdge g cid cl = false := by
  unfold hasClauseEdge
  rw [List.any_eq_false]
  intro e he
  simp only [Bool.and_eq_true, beq_iff_eq, not_and]
  intro _
  exact Nat.ne_of_lt (h e he)

theorem hasTypeEdge_fresh (g : Graph) (cl : Nat) (ty : String)
    (h : ∀ e ∈ g.has_type, e.1 < cl) : hasTypeEdge g cl ty = false := by
  unfold hasTypeEdge
  rw [List.any_eq_false]
  intro e he
  simp only [Bool.and_eq_true, beq_iff_eq, not_and]
  intro hc
  exact absurd hc (Nat.ne_of_lt (h e he))

theorem excerptLinked_fresh (g : Graph) (cl : Nat) (t : String)
    (h : ∀ he ∈ g.has_excerpt, he.1 < cl) : excerptLinked g cl t = false := by
  unfold excerptLinked
  rw [List.any_eq_false]
  intro he hhe
  simp only [Bool.and_eq_true, beq_iff_eq, not_and]
  intro hc
  exact absurd hc (Nat.ne_of_lt (h he hhe))

theorem createClause_counts (cid : Int) (g : Graph) (c : ClauseRecord) (hb : g.IdsBounded) :
    (createClause cid g c).contractClauses.length = g.contractClauses.length + 1 ∧
    (createClause cid g c).has_clause.length = g.has_clause.length + 1 ∧
    hasClauseCountFrom (createClause cid g c) cid = hasClauseCountFrom g cid + 1 ∧
    (createClause cid g c).has_type.length = g.has_type.length + 1 ∧
    (createClause cid g c).excerpts.length = g.excerpts.length + distinctCount c.excerpts ∧
    (createClause cid g c).has_excerpt.length
      = g.has_excerpt.length + distinctCount c.excerpts ∧
    (createClause cid g c).clauseTypes = insertIfAbsent g.clauseTypes c.clause_type ∧
    (createClause cid g c).IdsBounded := by
  obtain ⟨hcc, hexc, hhc, hhe, hht⟩ := hb
  set cl := g.nextId with hcl_def
  set g1 : Graph := { g with
      contractClauses := g.contractClauses ++ [(cl, c.clause_type)]
      nextId := g.nextId + 1 } with hg1
  have hedge : hasClauseEdge g1 cid cl = false := by
    apply hasClauseEdge_fresh
    intro e he
    exact hhc e he
  set g2 : Graph := mergeHasClause cid cl c.clause_type g1 with hg2
  have hg2e : g2 = { g1 with has_clause := g1.has_clause ++ [(cid, cl, c.clause_type)] } := by
    rw [hg2]
    unfold mergeHasClause
    rw [if_neg (by rw [hedge]; exact Bool.false_ne_true)]
  have hb2 : g2.IdsBounded := by
    rw [hg2e]
    refine ⟨?_, ?_, ?_, ?_, ?_⟩
    · intro x hx
      rcases List.mem_append.mp hx with h | h
      · exact Nat.lt_succ_of_lt (hcc x h)
      · simp at h
        rw [h]
        exact Nat.lt_succ_self _
    · intro x hx
      exact Nat.lt_succ_of_lt (hexc x hx)
    · intro x hx
      rcases List.mem_append.mp hx with h | h
      · exact Nat.lt_succ_of_lt (hhc x h)
      · simp at h
        rw [h]
        exact Nat.lt_succ_self _
    · intro x hx
      exact ⟨Nat.lt_succ_of_lt (hhe x hx).1, Nat.lt_succ_of_lt (hhe x hx).2⟩
    · intro x hx
      exact Nat.lt_succ_of_lt (hht x hx)
  have hcl2 : cl < g2.nextId := by
    rw [hg2e]
    exact Nat.lt_succ_self _
  have hinv : ∀ t, excerptLinked g2 cl t = true ↔ t ∈ ([] : List String) := by
    intro t
    have hf : excerptLinked g2 cl t = false := by
      apply excerptLinked_fresh
      rw [hg2e]
      intro he hhe'
      exact (hhe he hhe').1
    rw [hf]
    simp
  obtain ⟨hf1, hf2, hf3, hf4⟩ := excerptFold_counts cl c.excerpts g2 [] hb2 hcl2 hinv
  simp only [List.length_nil, Nat.add_zero] at hf1 hf2
  set g3 : Graph := c.excerpts.foldl (mergeExcerpt cl) g2 with hg3
  have hcc3 : g3.contractClauses = g2.contractClauses :=
    foldl_proj_eq _ _ (fun b a => mergeExcerpt_contractClauses cl b a) c.excerpts g2
  have hhc3 : g3.has_clause = g2.has_clause :=
    foldl_proj_eq _ _ (fun b a => mergeExcerpt_has_clause cl b a) c.excerpts g2
  have hht3 : g3.has_type = g2.has_type :=
    foldl_proj_eq _ _ (fun b a => mergeExcerpt_has_type cl b a) c.excerpts g2
  have hct3 : g3.clauseTypes = g2.clauseTypes :=
    foldl_proj_eq _ _ (fun b a => mergeExcerpt_clauseTypes cl b a) c.excerpts g2
  have e_cc : g3.contractClauses = g.contractClauses ++ [(cl, c.clause_type)] := by
    rw [hcc3, hg2e]
  have e_hc : g3.has_clause = g.has_clause ++ [(cid, cl, c.clause_type)] := by
    rw [hhc3, hg2e]
  have e_ht : g3.has_type = g.has_type := by
    rw [hht3, hg2e]
  have e_ct : g3.clauseTypes = g.clauseTypes := by
    rw [hct3, hg2e]
  have e_exc : g2.excerpts = g.excerpts := by
    rw [hg2e]
  have e_hex : g2.has_excerpt = g.has_excerpt := by
    rw [hg2e]
  set g4 : Graph := { g3 with clauseTypes := insertIfAbsent g3.clauseTypes c.clause_type }
    with hg4
  have htedge : hasTypeEdge g4 cl c.clause_type = false := by
    apply hasTypeEdge_fresh
    intro e he'
    have h4 : g4.has_type = g.has_type := by
      rw [hg4]
      show g3.has_type = g.has_type
      exact e_ht
    rw [h4] at he'
    exact hht e he'
  have hfinal : createClause cid g c = mergeHasType cl c.clause_type g4 := rfl
  have hfe : mergeHasType cl c.clause_type g4
      = { g4 with has_type := g4.has_type ++ [(cl, c.clause_type)] } := by
    unfold mergeHasType
    rw [if_neg (by rw [htedge]; exact Bool.false_ne_true)]
  rw [hfinal, hfe]
  refine ⟨?_, ?_, ?_, ?_, ?_, ?_, ?_, ?_⟩
  · show g3.contractClauses.length = _
    rw [e_cc]
    simp
  · show g3.has_clause.length = _
    rw [e_hc]
    simp
  · unfold hasClauseCountFrom
    show (g3.has_clause.filter (fun e => e.1 == cid)).length = _
    rw [e_hc]
    simp [List.filter_append]
  · show (g3.has_type ++ [(cl, c.clause_type)]).length = _
    rw [e_ht]
    simp
  · show g3.excerpts.length = _
    unfold distinctCount
    rw [← e_exc]
    omega
  · show g3.has_excerpt.length = _
    unfold distinctCount
    rw [← e_hex]
    omega
  · show insertIfAbsent g3.clauseTypes c.clause_type = _
    rw [e_ct]
  · obtain ⟨k1, k2, k3, k4, k5⟩ := hf3
    refine ⟨k1, k2, k3, k4, ?_⟩
    intro x hx
    rcases List.mem_append.mp hx with h | h
    · exact k5 x h
    · simp at h
      rw [h]
      exact hf4

/-- A fold preserves any property each step preserves. -/
theorem foldl_pres_prop {α β : Type} (f : β → α → β) (P : β → Prop)
    (h : ∀ b a, P b → P (f b a)) : ∀ (l : List α) (b : β), P b → P (l.foldl f b) := by
  intro l
  induction l with
  | nil => intro b hb; exact hb
  | cons x xs ih =>
      intro b hb
      rw [List.foldl_cons]
      exact ih (f b x) (h b x hb)

theorem clauseFold_counts (cid : Int) :
    ∀ (cs : List ClauseRecord) (g : Graph), g.IdsBounded →
      (cs.foldl (createClause cid) g).contractClauses.length
          = g.contractClauses.length + cs.length ∧
      (cs.foldl (createClause cid) g).has_clause.length = g.has_clause.length + cs.length ∧
      hasClauseCountFrom (cs.foldl (createClause cid) g) cid
          = hasClauseCountFrom g cid + cs.length ∧
      (cs.foldl (createClause cid) g).has_type.length = g.has_type.length + cs.length ∧
      (cs.foldl (createClause cid) g).excerpts.length
          = g.excerpts.length + (cs.map (fun c => distinctCount c.excerpts)).sum ∧
      (cs.foldl (createClause cid) g).has_excerpt.length
          = g.has_excerpt.length + (cs.map (fun c => distinctCount c.excerpts)).sum ∧
      (cs.foldl (createClause cid) g).IdsBounded := by
  intro cs
  induction cs with
  | nil =>
      intro g hb
      exact ⟨by simp, by simp, by simp, by simp, by simp, by simp, hb⟩
  | cons c cs ih =>
      intro g hb
      obtain ⟨h1, h2, h3, h4, h5, h6, _, h8⟩ := createClause_counts cid g c hb
      obtain ⟨i1, i2, i3, i4, i5, i6, i7⟩ := ih (createClause cid g c) h8
      rw [List.foldl_cons]
      refine ⟨?_, ?_, ?_, ?_, ?_, ?_, i7⟩ <;> simp only [List.length_cons, List.map_cons,
        List.sum_cons] <;> omega

theorem IdsBounded_of_eq {g g' : Graph}
    (h1 : g'.contractClauses = g.contractClauses) (h2 : g'.excerpts = g.excerpts)
    (h3 : g'.has_clause = g.has_clause) (h4 : g'.has_excerpt = g.has_excerpt)
    (h5 : g'.has_type = g.has_type) (h6 : g'.nextId = g.nextId) :
    g.IdsBounded → g'.IdsBounded := by
  unfold Graph.IdsBounded
  rw [h1, h2, h3, h4, h5, h6]
  exact id

theorem mergeAgreement_IdsBounded (g : Graph) (a : Agreement) (hb : g.IdsBounded) :
    (mergeAgreement g a).IdsBounded :=
  IdsBounded_of_eq (mergeAgreement_contractClauses g a) (mergeAgreement_excerpts g a)
    (mergeAgreement_has_clause g a) (mergeAgreement_has_excerpt g a)
    (mergeAgreement_has_type g a) (mergeAgreement_nextId g a) hb

theorem mergeGovernedByLaw_IdsBounded (g : Graph) (cid : Int) (gl : GoverningLaw)
    (hb : g.IdsBounded) : (mergeGovernedByLaw g cid gl).IdsBounded :=
  IdsBounded_of_eq (mergeGovernedByLaw_contractClauses g cid gl)
    (mergeGovernedByLaw_excerpts g cid gl) (mergeGovernedByLaw_has_clause g cid gl)
    (mergeGovernedByLaw_has_excerpt g cid gl) (mergeGovernedByLaw_has_type g cid gl)
    (mergeGovernedByLaw_nextId g cid gl) hb

theorem mergeParty_IdsBounded (cid : Int) (g : Graph) (p : Party) (hb : g.IdsBounded) :
    (mergeParty cid g p).IdsBounded :=
  IdsBounded_of_eq (mergeParty_contractClauses cid g p) (mergeParty_excerpts cid g p)
    (mergeParty_has_clause cid g p) (mergeParty_has_excerpt cid g p)
    (mergeParty_has_type cid g p) (mergeParty_nextId cid g p) hb

theorem hasClauseCountFrom_congr {g g' : Graph} (cid : Int)
    (h : g'.has_clause = g.has_clause) : hasClauseCountFrom g' cid = hasClauseCountFrom g cid := by
  unfold hasClauseCountFrom
  rw [h]

/-- The graph state right before the clause loop of `CREATE_GRAPH_QUERY`. -/
def preClauseGraph (g : Graph) (a : Agreement) : Graph :=
  a.parties.foldl (mergeParty a.contract_id)
    (mergeGovernedByLaw (mergeAgreement g a) a.contract_id a.governing_law)

theorem createGraph_eq_clauseFold (g : Graph) (a : Agreement) :
    createGraph g a = (validClauses a).foldl (createClause a.contract_id) (preClauseGraph g a) :=
  rfl

theorem preClauseGraph_fields (g : Graph) (a : Agreement) :
    (preClauseGraph g a).contractClauses = g.contractClauses ∧
    (preClauseGraph g a).excerpts = g.excerpts ∧
    (preClauseGraph g a).has_clause = g.has_clause ∧
    (preClauseGraph g a).has_excerpt = g.has_excerpt ∧
    (preClauseGraph g a).has_type = g.has_type ∧
    (preClauseGraph g a).clauseTypes = g.clauseTypes ∧
    (preClauseGraph g a).nextId = g.nextId := by
  unfold preClauseGraph
  refine ⟨?_, ?_, ?_, ?_, ?_, ?_, ?_⟩
  · rw [foldl_proj_eq _ Graph.contractClauses
        (fun b p => mergeParty_contractClauses a.contract_id b p),
      mergeGovernedByLaw_contractClauses, mergeAgreement_contractClauses]
  · rw [foldl_proj_eq _ Graph.excerpts (fun b p => mergeParty_excerpts a.contract_id b p),
      mergeGovernedByLaw_excerpts, mergeAgreement_excerpts]
  · rw [foldl_proj_eq _ Graph.has_clause (fun b p => mergeParty_has_clause a.contract_id b p),
      mergeGovernedByLaw_has_clause, mergeAgreement_has_clause]
  · rw [foldl_proj_eq _ Graph.has_excerpt
        (fun b p => mergeParty_has_excerpt a.contract_id b p),
      mergeGovernedByLaw_has_excerpt, mergeAgreement_has_excerpt]
  · rw [foldl_proj_eq _ Graph.has_type (fun b p => mergeParty_has_type a.contract_id b p),
      mergeGovernedByLaw_has_type, mergeAgreement_has_type]
  · rw [foldl_proj_eq _ Graph.clauseTypes (fun b p => mergeParty_clauseTypes a.contract_id b p),
      mergeGovernedByLaw_clauseTypes, mergeAgreement_clauseTypes]
  · rw [foldl_proj_eq _ Graph.nextId (fun b p => mergeParty_nextId a.contract_id b p),
      mergeGovernedByLaw_nextId, mergeAgreement_nextId]

theorem preClauseGraph_IdsBounded (g : Graph) (a : Agreement) (hb : g.IdsBounded) :
    (preClauseGraph g a).IdsBounded := by
  obtain ⟨h1, h2, h3, h4, h5, _, h7⟩ := preClauseGraph_fields g a
  exact IdsBounded_of_eq h1 h2 h3 h4 h5 h7 hb

theorem any_endpoints_map {α β γ : Type} [BEq α] [BEq β] (l : List (α × β × γ))
    (f : α × β × γ → α × β × γ) (hf : ∀ e, (f e).1 = e.1 ∧ (f e).2.1 = e.2.1)
    (p : α) (q : β) :
    ((l.map f).any (fun e => e.1 == p && e.2.1 == q))
      = l.any (fun e => e.1 == p && e.2.1 == q) := by
  rw [List.any_map]
  congr 1
  funext e
  simp [Function.comp, (hf e).1, (hf e).2]

theorem agreementPresent_congr {g g' : Graph} (cid : Int)
    (h : g'.agreements = g.agreements) : agreementPresent g' cid = agreementPresent g cid := by
  unfold agreementPresent
  rw [h]

theorem hasGoverningEdge_congr {g g' : Graph} (cid : Int) (c : String)
    (h : g'.governed_by_law = g.governed_by_law) :
    hasGoverningEdge g' cid c = hasGoverningEdge g cid c := by
  unfold hasGoverningEdge
  rw [h]

theorem hasIsPartyTo_congr {g g' : Graph} (n : String) (c : Int)
    (h : g'.is_party_to = g.is_party_to) : hasIsPartyTo g' n c = hasIsPartyTo g n c := by
  unfold hasIsPartyTo
  rw [h]

theorem hasIncorporatedIn_congr {g g' : Graph} (n c : String)
    (h : g'.incorporated_in = g.incorporated_in) :
    hasIncorporatedIn g' n c = hasIncorporatedIn g n c := by
  unfold hasIncorporatedIn
  rw [h]

theorem mergeAgreement_establishes (g : Graph) (a : Agreement) :
    agreementPresent (mergeAgreement g a) a.contract_id = true := by
  unfold mergeAgreement
  by_cases h : agreementPresent g a.contract_id = true
  · rw [if_pos h]
    exact h
  · rw [if_neg h]
    unfold agreementPresent
    simp

theorem mergeGovernedByLaw_establishes (g : Graph) (cid : Int) (gl : GoverningLaw) :
    gl.country ∈ (mergeGovernedByLaw g cid gl).countries ∧
    hasGoverningEdge (mergeGovernedByLaw g cid gl) cid gl.country = true := by
  unfold mergeGovernedByLaw
  by_cases h : hasGoverningEdge
      { g with countries := insertIfAbsent g.countries gl.country } cid gl.country = true
  · rw [if_pos h]
    refine ⟨mem_insertIfAbsent_self _ _, ?_⟩
    unfold hasGoverningEdge at h ⊢
    rw [any_endpoints_map _ _ (fun e => by split <;> exact ⟨rfl, rfl⟩)]
    exact h
  · rw [if_neg h]
    refine ⟨mem_insertIfAbsent_self _ _, ?_⟩
    unfold hasGoverningEdge
    simp

theorem mergeGovernedByLaw_rerun (g : Graph) (cid : Int) (gl : GoverningLaw)
    (h1 : gl.country ∈ g.countries) (h2 : hasGoverningEdge g cid gl.country = true) :
    (mergeGovernedByLaw g cid gl).countries = g.countries ∧
    (mergeGovernedByLaw g cid gl).governed_by_law.length = g.governed_by_law.length := by
  unfold mergeGovernedByLaw
  rw [insertIfAbsent_of_mem h1]
  rw [if_pos (show hasGoverningEdge { g with countries := g.countries } cid gl.country = true
        from h2)]
  exact ⟨rfl, by simp⟩

theorem mergeParty_establishes (cid : Int) (g : Graph) (p : Party) :
    p.name ∈ (mergeParty cid g p).organizations ∧
    hasIsPartyTo (mergeParty cid g p) p.name cid = true ∧
    p.incorporation_country ∈ (mergeParty cid g p).countries ∧
    hasIncorporatedIn (mergeParty cid g p) p.name p.incorporation_country = true := by
  unfold mergeParty
  set g1 : Graph := { g with organizations := insertIfAbsent g.organizations p.name } with hg1
  set g2 : Graph :=
    (if hasIsPartyTo g1 p.name cid then
      let updated := g1.is_party_to.map
        (fun e => if e.1 == p.name && e.2.1 == cid then (e.1, e.2.1, p.role) else e)
      { g1 with is_party_to := updated }
    else
      { g1 with is_party_to := g1.is_party_to ++ [(p.name, cid, p.role)] }) with hg2
  set g3 : Graph := { g2 with countries := insertIfAbsent g2.countries p.incorporation_country }
    with hg3
  have horg2 : g2.organizations = g1.organizations := by
    rw [hg2]
    split <;> rfl
  have hipt2 : hasIsPartyTo g2 p.name cid = true := by
    rw [hg2]
    by_cases h : hasIsPartyTo g1 p.name cid = true
    · rw [if_pos h]
      unfold hasIsPartyTo at h ⊢
      rw [any_endpoints_map _ _ (fun e => by split <;> exact ⟨rfl, rfl⟩)]
      exact h
    · rw [if_neg h]
      unfold hasIsPartyTo
      simp
  by_cases h : hasIncorporatedIn g3 p.name p.incorporation_country = true
  · rw [if_pos h]
    refine ⟨?_, ?_, ?_, ?_⟩
    · show p.name ∈ g3.organizations
      rw [hg3, horg2, hg1]
      exact mem_insertIfAbsent_self _ _
    · exact hipt2
    · show p.incorporation_country ∈ g3.countries
      rw [hg3]
      exact mem_insertIfAbsent_self _ _
    · unfold hasIncorporatedIn at h ⊢
      rw [any_endpoints_map _ _ (fun e => by split <;> exact ⟨rfl, rfl⟩)]
      exact h
  · rw [if_neg h]
    refine ⟨?_, ?_, ?_, ?_⟩
    · show p.name ∈ g3.organizations
      rw [hg3, horg2, hg1]
      exact mem_insertIfAbsent_self _ _
    · exact hipt2
    · show p.incorporation_country ∈ g3.countries
      rw [hg3]
      exact mem_insertIfAbsent_self _ _
    · unfold hasIncorporatedIn
      simp

theorem mergeParty_mono (cid : Int) (g : Graph) (p : Party) :
    (∀ x, x ∈ g.organizations → x ∈ (mergeParty cid g p).organizations) ∧
    (∀ x, x ∈ g.countries → x ∈ (mergeParty cid g p).countries) ∧
    (∀ n c, hasIsPartyTo g n c = true → hasIsPartyTo (mergeParty cid g p) n c = true) ∧
    (∀ n c, hasIncorporatedIn g n c = true
      → hasIncorporatedIn (mergeParty cid g p) n c = true) := by
  unfold mergeParty
  set g1 : Graph := { g with organizations := insertIfAbsent g.organizations p.name } with hg1
  set g2 : Graph :=
    (if hasIsPartyTo g1 p.name cid then
      let updated := g1.is_party_to.map
        (fun e => if e.1 == p.name && e.2.1 == cid then (e.1, e.2.1, p.role) else e)
      { g1 with is_party_to := updated }
    else
      { g1 with is_party_to := g1.is_party_to ++ [(p.name, cid, p.role)] }) with hg2
  have horg2 : g2.organizations = g1.organizations := by
    rw [hg2]
    split <;> rfl
  have hc2 : g2.countries = g.countries := by
    rw [hg2]
    split <;> rfl
  have hipt2 : ∀ n c, hasIsPartyTo g n c = true → hasIsPartyTo g2 n c = true := by
    intro n c h
    rw [hg2]
    by_cases hif : hasIsPartyTo g1 p.name cid = true
    · rw [if_pos hif]
      unfold hasIsPartyTo at h ⊢
      rw [any_endpoints_map _ _ (fun e => by split <;> exact ⟨rfl, rfl⟩)]
      exact h
    · rw [if_neg hif]
      unfold hasIsPartyTo at h ⊢
      simp only [List.any_append]
      rw [h]
      rfl
  by_cases hif : hasIncorporatedIn
      { g2 with countries := insertIfAbsent g2.countries p.incorporation_country }
      p.name p.incorporation_country = true
  · rw [if_pos hif]
    refine ⟨?_, ?_, ?_, ?_⟩
    · intro x hx
      show x ∈ g2.organizations
      rw [horg2, hg1]
      exact mem_insertIfAbsent_of_mem p.name hx
    · intro x hx
      show x ∈ insertIfAbsent g2.countries p.incorporation_country
      rw [hc2]
      exact mem_insertIfAbsent_of_mem _ hx
    · intro n c h
      exact hipt2 n c h
    · intro n c h
      unfold hasIncorporatedIn at h ⊢
      show ((g2.incorporated_in.map
          (fun e => if e.1 == p.name && e.2.1 == p.incorporation_country
                    then (e.1, e.2.1, p.incorporation_state) else e)).any
          (fun e => e.1 == n && e.2.1 == c)) = true
      rw [any_endpoints_map _ _ (fun e => by split <;> exact ⟨rfl, rfl⟩)]
      have hin2 : g2.incorporated_in = g.incorporated_in := by
        rw [hg2]
        split <;> rfl
      rw [hin2]
      exact h
  · rw [if_neg hif]
    refine ⟨?_, ?_, ?_, ?_⟩
    · intro x hx
      show x ∈ g2.organizations
      rw [horg2, hg1]
      exact mem_insertIfAbsent_of_mem p.name hx
    · intro x hx
      show x ∈ insertIfAbsent g2.countries p.incorporation_country
      rw [hc2]
      exact mem_insertIfAbsent_of_mem _ hx
    · intro n c h
      exact hipt2 n c h
    · intro n c h
      unfold hasIncorporatedIn at h ⊢
      show ((g2.incorporated_in
          ++ [(p.name, p.incorporation_country, p.incorporation_state)]).any
          (fun e => e.1 == n && e.2.1 == c)) = true
      have hin2 : g2.incorporated_in = g.incorporated_in := by
        rw [hg2]
        split <;> rfl
      rw [List.any_append, hin2, h]
      rfl

theorem mergeParty_rerun (cid : Int) (g : Graph) (p : Party)
    (h1 : p.name ∈ g.organizations) (h2 : hasIsPartyTo g p.name cid = true)
    (h3 : p.incorporation_country ∈ g.countries)
    (h4 : hasIncorporatedIn g p.name p.incorporation_country = true) :
    (mergeParty cid g p).organizations = g.organizations ∧
    (mergeParty cid g p).countries = g.countries ∧
    (mergeParty cid g p).is_party_to.length = g.is_party_to.length ∧
    (mergeParty cid g p).incorporated_in.length = g.incorporated_in.length ∧
    (∀ n c, hasIsPartyTo (mergeParty cid g p) n c = hasIsPartyTo g n c) ∧
    (∀ n c, hasIncorporatedIn (mergeParty cid g p) n c = hasIncorporatedIn g n c) := by
  simp only [mergeParty]
  rw [insertIfAbsent_of_mem h1]
  rw [if_pos (show hasIsPartyTo { g with organizations := g.organizations } p.name cid = true
        from h2)]
  set l2 : List (String × Int × String) := g.is_party_to.map
    (fun e => if e.1 == p.name && e.2.1 == cid then (e.1, e.2.1, p.role) else e) with hl2
  set g2 : Graph := { g with is_party_to := l2 } with hg2
  have hc3 : insertIfAbsent g2.countries p.incorporation_country = g2.countries := by
    rw [hg2]
    exact insertIfAbsent_of_mem h3
  rw [hc3]
  rw [if_pos (show hasIncorporatedIn { g2 with countries := g2.countries }
        p.name p.incorporation_country = true from h4)]
  refine ⟨rfl, rfl, by show l2.length = _; rw [hl2]; simp, by show (g2.incorporated_in.map _).length = _; simp, ?_, ?_⟩
  · intro n c
    show (g2.is_party_to.any (fun e => e.1 == n && e.2.1 == c)) = _
    rw [hg2]
    show ((g.is_party_to.map _).any _) = _
    rw [any_endpoints_map _ _ (fun e => by split <;> exact ⟨rfl, rfl⟩)]
    rfl
  · intro n c
    show ((g.incorporated_in.map _).any _) = _
    rw [any_endpoints_map _ _ (fun e => by split <;> exact ⟨rfl, rfl⟩)]
    rfl

/-- The facts about one party that the party loop guarantees. -/
def PartyFacts (g : Graph) (cid : Int) (p : Party) : Prop :=
  p.name ∈ g.organizations ∧
  hasIsPartyTo g p.name cid = true ∧
  p.incorporation_country ∈ g.countries ∧
  hasIncorporatedIn g p.name p.incorporation_country = true

theorem mergeParty_pres_facts (cid : Int) (g : Graph) (p q : Party)
    (h : PartyFacts g cid q) : PartyFacts (mergeParty cid g p) cid q := by
  obtain ⟨m1, m2, m3, m4⟩ := mergeParty_mono cid g p
  exact ⟨m1 _ h.1, m3 _ _ h.2.1, m2 _ h.2.2.1, m4 _ _ h.2.2.2⟩

theorem partyFold_establishes (cid : Int) :
    ∀ (ps : List Party) (g : Graph) (p : Party), p ∈ ps →
      PartyFacts (ps.foldl (mergeParty cid) g) cid p := by
  intro ps
  induction ps with
  | nil => intro g p hp; cases hp
  | cons q qs ih =>
      intro g p hp
      rw [List.foldl_cons]
      rcases List.mem_cons.mp hp with rfl | hmem
      · apply foldl_pres_prop (mergeParty cid) (fun h => PartyFacts h cid p)
          (fun b r hb => mergeParty_pres_facts cid b r p hb)
        obtain ⟨e1, e2, e3, e4⟩ := mergeParty_establishes cid g p
        exact ⟨e1, e2, e3, e4⟩
      · exact ih (mergeParty cid g q) p hmem

theorem partyFold_rerun (cid : Int) :
    ∀ (ps : List Party) (g : Graph), (∀ p ∈ ps, PartyFacts g cid p) →
      (ps.foldl (mergeParty cid) g).organizations = g.organizations ∧
      (ps.foldl (mergeParty cid) g).countries = g.countries ∧
      (ps.foldl (mergeParty cid) g).is_party_to.length = g.is_party_to.length ∧
      (ps.foldl (mergeParty cid) g).incorporated_in.length = g.incorporated_in.length := by
  intro ps
  induction ps with
  | nil => intro g _; exact ⟨rfl, rfl, rfl, rfl⟩
  | cons q qs ih =>
      intro g h
      obtain ⟨f1, f2, f3, f4⟩ := h q (by simp)
      obtain ⟨r1, r2, r3, r4, r5, r6⟩ := mergeParty_rerun cid g q f1 f2 f3 f4
      have hrest : ∀ p ∈ qs, PartyFacts (mergeParty cid g q) cid p := by
        intro p hp
        obtain ⟨k1, k2, k3, k4⟩ := h p (by simp [hp])
        exact ⟨by rw [r1]; exact k1, by rw [r5]; exact k2,
               by rw [r2]; exact k3, by rw [r6]; exact k4⟩
      obtain ⟨i1, i2, i3, i4⟩ := ih (mergeParty cid g q) hrest
      rw [List.foldl_cons]
      exact ⟨by rw [i1, r1], by rw [i2, r2], by rw [i3, r3], by rw [i4, r4]⟩

theorem createClause_clauseTypes (cid : Int) (g : Graph) (c : ClauseRecord) :
    (createClause cid g c).clauseTypes = insertIfAbsent g.clauseTypes c.clause_type := by
  have hm : ∀ (cl : Nat) (h : Graph) (ts : List String),
      (ts.foldl (mergeExcerpt cl) h).clauseTypes = h.clauseTypes :=
    fun cl h ts => foldl_proj_eq _ _ (fun b a => mergeExcerpt_clauseTypes cl b a) ts h
  simp [createClause, mergeHasClause, mergeHasType, hm, apply_ite Graph.clauseTypes]

theorem clauseFold_establishes_types (cid : Int) :
    ∀ (cs : List ClauseRecord) (g : Graph) (c : ClauseRecord), c ∈ cs →
      c.clause_type ∈ (cs.foldl (createClause cid) g).clauseTypes := by
  intro cs
  induction cs with
  | nil => intro g c hc; cases hc
  | cons d ds ih =>
      intro g c hc
      rw [List.foldl_cons]
      rcases List.mem_cons.mp hc with rfl | hmem
      · apply foldl_pres_prop (createClause cid)
          (fun h => c.clause_type ∈ h.clauseTypes)
          (fun b r hb => by
            rw [createClause_clauseTypes]
            exact mem_insertIfAbsent_of_mem _ hb)
        rw [createClause_clauseTypes]
        exact mem_insertIfAbsent_self _ _
      · exact ih (createClause cid g d) c hmem

theorem clauseFold_clauseTypes_rerun (cid : Int) :
    ∀ (cs : List ClauseRecord) (g : Graph), (∀ c ∈ cs, c.clause_type ∈ g.clauseTypes) →
      (cs.foldl (createClause cid) g).clauseTypes = g.clauseTypes := by
  intro cs
  induction cs with
  | nil => intro g _; rfl
  | cons d ds ih =>
      intro g h
      rw [List.foldl_cons]
      have hd : (createClause cid g d).clauseTypes = g.clauseTypes := by
        rw [createClause_clauseTypes]
        exact insertIfAbsent_of_mem (h d (by simp))
      have hrest : ∀ c ∈ ds, c.clause_type ∈ (createClause cid g d).clauseTypes := by
        intro c hc
        rw [hd]
        exact h c (by simp [hc])
      rw [ih (createClause cid g d) hrest, hd]

/-- All graph facts that hold after `CREATE_GRAPH_QUERY` has run once for a
record: the agreement node, its governing-law country and edge, the party
nodes and edges, and the clause-type nodes all exist. -/
def RunOnceFacts (g : Graph) (a : Agreement) : Prop :=
  agreementPresent g a.contract_id = true ∧
  a.governing_law.country ∈ g.countries ∧
  hasGoverningEdge g a.contract_id a.governing_law.country = true ∧
  (∀ p ∈ a.parties, PartyFacts g a.contract_id p) ∧
  (∀ c ∈ validClauses a, c.clause_type ∈ g.clauseTypes)

theorem createGraph_establishes (g : Graph) (a : Agreement) :
    RunOnceFacts (createGraph g a) a := by
  set gA : Graph := mergeAgreement g a with hgA
  set gG : Graph := mergeGovernedByLaw gA a.contract_id a.governing_law with hgG
  set gP : Graph := a.parties.foldl (mergeParty a.contract_id) gG with hgP
  set gC : Graph := (validClauses a).foldl (createClause a.contract_id) gP with hgC
  have hcg : createGraph g a = gC := rfl
  rw [hcg]
  have hP_agr : gP.agreements = gA.agreements := by
    rw [hgP, foldl_proj_eq _ _ (fun b p => mergeParty_agreements a.contract_id b p), hgG,
        mergeGovernedByLaw_agreements]
  have hC_agr : gC.agreements = gP.agreements := by
    rw [hgC, foldl_proj_eq _ _ (fun b c => createClause_agreements a.contract_id b c)]
  have hC_countries : gC.countries = gP.countries := by
    rw [hgC, foldl_proj_eq _ _ (fun b c => createClause_countries a.contract_id b c)]
  have hC_org : gC.organizations = gP.organizations := by
    rw [hgC, foldl_proj_eq _ _ (fun b c => createClause_organizations a.contract_id b c)]
  have hC_gbl : gC.governed_by_law = gP.governed_by_law := by
    rw [hgC, foldl_proj_eq _ _ (fun b c => createClause_governed_by_law a.contract_id b c)]
  have hC_ipt : gC.is_party_to = gP.is_party_to := by
    rw [hgC, foldl_proj_eq _ _ (fun b c => createClause_is_party_to a.contract_id b c)]
  have hC_inc : gC.incorporated_in = gP.incorporated_in := by
    rw [hgC, foldl_proj_eq _ _ (fun b c => createClause_incorporated_in a.contract_id b c)]
  have hP_gbl : gP.governed_by_law = gG.governed_by_law := by
    rw [hgP, foldl_proj_eq _ _ (fun b p => mergeParty_governed_by_law a.contract_id b p)]
  refine ⟨?_, ?_, ?_, ?_, ?_⟩
  · rw [agreementPresent_congr a.contract_id hC_agr, agreementPresent_congr a.contract_id hP_agr]
    exact mergeAgreement_establishes g a
  · rw [hC_countries]
    apply foldl_pres_prop (mergeParty a.contract_id)
      (fun h => a.governing_law.country ∈ h.countries)
      (fun b p hb => (mergeParty_mono a.contract_id b p).2.1 _ hb)
    exact (mergeGovernedByLaw_establishes gA a.contract_id a.governing_law).1
  · rw [hasGoverningEdge_congr _ _ hC_gbl, hasGoverningEdge_congr _ _ hP_gbl]
    exact (mergeGovernedByLaw_establishes gA a.contract_id a.governing_law).2
  · intro p hp
    have hf := partyFold_establishes a.contract_id a.parties gG p hp
    exact ⟨by rw [hC_org]; exact hf.1,
           by rw [hasIsPartyTo_congr _ _ hC_ipt]; exact hf.2.1,
           by rw [hC_countries]; exact hf.2.2.1,
           by rw [hasIncorporatedIn_congr _ _ hC_inc]; exact hf.2.2.2⟩
  · intro c hc
    exact clauseFold_establishes_types a.contract_id (validClauses a) gP c hc

theorem createGraph_rerun_fields (g : Graph) (a : Agreement) (hr : RunOnceFacts g a) :
    (createGraph g a).agreements = g.agreements ∧
    (createGraph g a).organizations = g.organizations ∧
    (createGraph g a).countries = g.countries ∧
    (createGraph g a).clauseTypes = g.clauseTypes ∧
    (createGraph g a).governed_by_law.length = g.governed_by_law.length ∧
    (createGraph g a).is_party_to.length = g.is_party_to.length ∧
    (createGraph g a).incorporated_in.length = g.incorporated_in.length := by
  obtain ⟨hpres, hcmem, hgedge, hparties, htypes⟩ := hr
  have hA : mergeAgreement g a = g := mergeAgreement_of_present hpres
  set gG : Graph := mergeGovernedByLaw g a.contract_id a.governing_law with hgG
  obtain ⟨hGc, hGlen⟩ := mergeGovernedByLaw_rerun g a.contract_id a.governing_law hcmem hgedge
  have hG_org : gG.organizations = g.organizations := by
    rw [hgG, mergeGovernedByLaw_organizations]
  have hG_agr : gG.agreements = g.agreements := by
    rw [hgG, mergeGovernedByLaw_agreements]
  have hG_ipt : gG.is_party_to = g.is_party_to := by
    rw [hgG, mergeGovernedByLaw_is_party_to]
  have hG_inc : gG.incorporated_in = g.incorporated_in := by
    rw [hgG, mergeGovernedByLaw_incorporated_in]
  have hG_ct : gG.clauseTypes = g.clauseTypes := by
    rw [hgG, mergeGovernedByLaw_clauseTypes]
  have hpartiesG : ∀ p ∈ a.parties, PartyFacts gG a.contract_id p := by
    intro p hp
    obtain ⟨k1, k2, k3, k4⟩ := hparties p hp
    exact ⟨by rw [hG_org]; exact k1,
           by rw [hasIsPartyTo_congr _ _ hG_ipt]; exact k2,
           by rw [hGc]; exact k3,
           by rw [hasIncorporatedIn_congr _ _ hG_inc]; exact k4⟩
  set gP : Graph := a.parties.foldl (mergeParty a.contract_id) gG with hgP
  obtain ⟨hPo, hPc, hPi, hPn⟩ := partyFold_rerun a.contract_id a.parties gG hpartiesG
  have hP_agr : gP.agreements = gG.agreements := by
    rw [hgP, foldl_proj_eq _ _ (fun b p => mergeParty_agreements a.contract_id b p)]
  have hP_gbl : gP.governed_by_law = gG.governed_by_law := by
    rw [hgP, foldl_proj_eq _ _ (fun b p => mergeParty_governed_by_law a.contract_id b p)]
  have hP_ct : gP.clauseTypes = gG.clauseTypes := by
    rw [hgP, foldl_proj_eq _ _ (fun b p => mergeParty_clauseTypes a.contract_id b p)]
  have htypesP : ∀ c ∈ validClauses a, c.clause_type ∈ gP.clauseTypes := by
    intro c hc
    rw [hP_ct, hG_ct]
    exact htypes c hc
  set gC : Graph := (validClauses a).foldl (createClause a.contract_id) gP with hgC
  have hcg : createGraph g a = gC := by
    have h0 : createGraph g a
        = (validClauses a).foldl (createClause a.contract_id)
          (a.parties.foldl (mergeParty a.contract_id)
            (mergeGovernedByLaw (mergeAgreement g a) a.contract_id a.governing_law)) := rfl
    rw [hA] at h0
    exact h0
  have hC_agr : gC.agreements = gP.agreements := by
    rw [hgC, foldl_proj_eq _ _ (fun b c => createClause_agreements a.contract_id b c)]
  have hC_org : gC.organizations = gP.organizations := by
    rw [hgC, foldl_proj_eq _ _ (fun b c => createClause_organizations a.contract_id b c)]
  have hC_countries : gC.countries = gP.countries := by
    rw [hgC, foldl_proj_eq _ _ (fun b c => createClause_countries a.contract_id b c)]
  have hC_gbl : gC.governed_by_law = gP.governed_by_law := by
    rw [hgC, foldl_proj_eq _ _ (fun b c => createClause_governed_by_law a.contract_id b c)]
  have hC_ipt : gC.is_party_to = gP.is_party_to := by
    rw [hgC, foldl_proj_eq _ _ (fun b c => createClause_is_party_to a.contract_id b c)]
  have hC_inc : gC.incorporated_in = gP.incorporated_in := by
    rw [hgC, foldl_proj_eq _ _ (fun b c => createClause_incorporated_in a.contract_id b c)]
  have hC_ct : gC.clauseTypes = gP.clauseTypes := by
    rw [hgC]
    exact clauseFold_clauseTypes_rerun a.contract_id (validClauses a) gP htypesP
  rw [hcg]
  refine ⟨?_, ?_, ?_, ?_, ?_, ?_, ?_⟩
  · rw [hC_agr, hP_agr, hG_agr]
  · rw [hC_org, hPo, hG_org]
  · rw [hC_countries, hPc, hGc]
  · rw [hC_ct, hP_ct, hG_ct]
  · rw [hC_gbl, hP_gbl]
    exact hGlen
  · rw [hC_ipt]
    rw [hPi]
    rw [hG_ipt]
  · rw [hC_inc]
    rw [hPn]
    rw [hG_inc]

theorem createGraph_counts (g : Graph) (a : Agreement) (hb : g.IdsBounded) :
    (createGraph g a).contractClauses.length
        = g.contractClauses.length + (validClauses a).length ∧
    (createGraph g a).has_clause.length = g.has_clause.length + (validClauses a).length ∧
    hasClauseCountFrom (createGraph g a) a.contract_id
        = hasClauseCountFrom g a.contract_id + (validClauses a).length ∧
    (createGraph g a).has_type.length = g.has_type.length + (validClauses a).length ∧
    (createGraph g a).excerpts.length = g.excerpts.length + excerptTotal a ∧
    (createGraph g a).has_excerpt.length = g.has_excerpt.length + excerptTotal a ∧
    (createGraph g a).IdsBounded := by
  obtain ⟨p1, p2, p3, p4, p5, p6, p7⟩ := preClauseGraph_fields g a
  obtain ⟨c1, c2, c3, c4, c5, c6, c7⟩ := clauseFold_counts a.contract_id (validClauses a)
      (preClauseGraph g a) (preClauseGraph_IdsBounded g a hb)
  rw [createGraph_eq_clauseFold]
  refine ⟨?_, ?_, ?_, ?_, ?_, ?_, c7⟩
  · rw [c1, p1]
  · rw [c2, p3]
  · rw [c3, hasClauseCountFrom_congr a.contract_id p3]
  · rw [c4, p5]
  · unfold excerptTotal
    rw [c5, p2]
  · unfold excerptTotal
    rw [c6, p4]

/-- **C7.**  One execution of `CREATE_GRAPH_QUERY` creates exactly one
`ContractClause` node per clause with `exists == true` (via the unconditional
`CREATE` in the `FOREACH` over `valid_clauses`), together with exactly one
`HAS_CLAUSE` relationship from this Agreement per such clause; clauses with
`exists == false` are filtered out and contribute no node and no
relationship. -/
theorem clause_nodes_count_valid_clauses (g : Graph) (a : Agreement) (hb : g.IdsBounded) :
    (createGraph g a).contractClauses.length
        = g.contractClauses.length + (validClauses a).length ∧
    (createGraph g a).has_clause.length = g.has_clause.length + (validClauses a).length ∧
    hasClauseCountFrom (createGraph g a) a.contract_id
        = hasClauseCountFrom g a.contract_id + (validClauses a).length ∧
    (createGraph g a).has_type.length = g.has_type.length + (validClauses a).length :=
  ⟨(createGraph_counts g a hb).1, (createGraph_counts g a hb).2.1,
   (createGraph_counts g a hb).2.2.1, (createGraph_counts g a hb).2.2.2.1⟩

/-- Witness for C7: the sample record has two clauses, one with
`exists == true` and one with `exists == false`; exactly one clause node
appears. -/
theorem clause_nodes_count_valid_clauses_witness :
    Graph.empty.IdsBounded ∧ (validClauses sampleRecord).length = 1 ∧
    (createGraph Graph.empty sampleRecord).contractClauses.length
      = Graph.empty.contractClauses.length + (validClauses sampleRecord).length :=
  ⟨by decide, by decide,
   (clause_nodes_count_valid_clauses Graph.empty sampleRecord (by decide)).1⟩

/-- **C1, counterexample.**  Executing the graph-construction statement twice
for the same record is not idempotent: the `CREATE` of `ContractClause` and
the pattern-anchored `MERGE` of `Excerpt` duplicate nodes, so the counts
after the second execution exceed those after the first. -/
theorem rebuild_not_idempotent :
    sampleGraphTwice.contractClauses.length = 2 ∧
    sampleGraph.contractClauses.length = 1 ∧
    sampleGraphTwice.excerpts.length = 2 ∧
    sampleGraph.excerpts.length = 1 ∧
    sampleGraphTwice.has_clause.length = 2 ∧
    sampleGraph.has_clause.length = 1 :=
  ⟨rfl, rfl, rfl, rfl, rfl, rfl⟩

/-- **C1, amended.**  Re-executing `CREATE_GRAPH_QUERY` with the same record
leaves the Agreement, Organization, Country and ClauseType node sets and the
`GOVERNED_BY_LAW` / `IS_PARTY_TO` / `INCORPORATED_IN` relationship counts
unchanged, but adds one fresh `ContractClause` node, one `HAS_CLAUSE` and one
`HAS_TYPE` relationship per `exists == true` clause, and one fresh `Excerpt`
node and `HAS_EXCERPT` relationship per distinct excerpt text of each such
clause: node/relationship counts after the second execution do not equal the
counts after the first whenever the record has a valid clause. -/
theorem rebuild_not_idempotent_amended (g : Graph) (a : Agreement) (hb : g.IdsBounded) :
    (createGraph (createGraph g a) a).agreements = (createGraph g a).agreements ∧
    (createGraph (createGraph g a) a).organizations = (createGraph g a).organizations ∧
    (createGraph (createGraph g a) a).countries = (createGraph g a).countries ∧
    (createGraph (createGraph g a) a).clauseTypes = (createGraph g a).clauseTypes ∧
    (createGraph (createGraph g a) a).governed_by_law.length
      = (createGraph g a).governed_by_law.length ∧
    (createGraph (createGraph g a) a).is_party_to.length
      = (createGraph g a).is_party_to.length ∧
    (createGraph (createGraph g a) a).incorporated_in.length
      = (createGraph g a).incorporated_in.length ∧
    (createGraph (createGraph g a) a).contractClauses.length
      = (createGraph g a).contractClauses.length + (validClauses a).length ∧
    (createGraph (createGraph g a) a).has_clause.length
      = (createGraph g a).has_clause.length + (validClauses a).length ∧
    (createGraph (createGraph g a) a).has_type.length
      = (createGraph g a).has_type.length + (validClauses a).length ∧
    (createGraph (createGraph g a) a).excerpts.length
      = (createGraph g a).excerpts.length + excerptTotal a ∧
    (createGraph (createGraph g a) a).has_excerpt.length
      = (createGraph g a).has_excerpt.length + excerptTotal a := by
  have hr := createGraph_establishes g a
  have hb1 := (createGraph_counts g a hb).2.2.2.2.2.2
  obtain ⟨r1, r2, r3, r4, r5, r6, r7⟩ := createGraph_rerun_fields (createGraph g a) a hr
  obtain ⟨q1, q2, _, q4, q5, q6, _⟩ := createGraph_counts (createGraph g a) a hb1
  exact ⟨r1, r2, r3, r4, r5, r6, r7, q1, q2, q4, q5, q6⟩

/-- Witness for C1's amended statement, at the empty graph and the sample
record. -/
theorem rebuild_not_idempotent_amended_witness :
    Graph.empty.IdsBounded ∧
    sampleGraphTwice.contractClauses.length
      = sampleGraph.contractClauses.length + (validClauses sampleRecord).length ∧
    sampleGraphTwice.organizations = sampleGraph.organizations :=
  ⟨by decide,
   (rebuild_not_idempotent_amended Graph.empty sampleRecord (by decide)).2.2.2.2.2.2.2.1,
   (rebuild_not_idempotent_amended Graph.empty sampleRecord (by decide)).2.1⟩

/-- The number of `Excerpt` nodes carrying a given text. -/
def countText (g : Graph) (t : String) : Nat :=
  (g.excerpts.filter (fun e => e.text == t)).length

theorem countText_congr {g g' : Graph} (t : String) (h : g'.excerpts = g.excerpts) :
    countText g' t = countText g t := by
  unfold countText
  rw [h]

theorem mergeExcerpt_countText_mono (cl : Nat) (g : Graph) (t' t : String) :
    countText g t ≤ countText (mergeExcerpt cl g t') t := by
  unfold mergeExcerpt
  split
  · exact le_refl _
  · unfold countText
    simp [List.filter_append]

theorem mergeExcerpt_countText_create (cl : Nat) (g : Graph) (t : String)
    (h : excerptLinked g cl t = false) :
    countText (mergeExcerpt cl g t) t = countText g t + 1 := by
  unfold mergeExcerpt
  rw [if_neg (by rw [h]; exact Bool.false_ne_true)]
  unfold countText
  simp [List.filter_append]

theorem mergeExcerpt_countText_other (cl : Nat) (g : Graph) (t' t : String)
    (h : t' ≠ t) : countText (mergeExcerpt cl g t') t = countText g t := by
  unfold mergeExcerpt
  split
  · rfl
  · unfold countText
    simp [List.filter_append, h]

theorem excerptFold_countText_mono (cl : Nat) (t : String) :
    ∀ (ts : List String) (g : Graph),
      countText g t ≤ countText (ts.foldl (mergeExcerpt cl) g) t := by
  intro ts
  induction ts with
  | nil => intro g; exact le_refl _
  | cons t0 ts ih =>
      intro g
      rw [List.foldl_cons]
      exact le_trans (mergeExcerpt_countText_mono cl g t0 t) (ih (mergeExcerpt cl g t0))

theorem excerptFold_adds_text (cl : Nat) (t : String) :
    ∀ (ts : List String) (g : Graph), t ∈ ts → excerptLinked g cl t = false →
      g.IdsBounded → cl < g.nextId →
      countText g t + 1 ≤ countText (ts.foldl (mergeExcerpt cl) g) t := by
  intro ts
  induction ts with
  | nil => intro g hmem; cases hmem
  | cons t0 ts ih =>
      intro g hmem hlink hb hcl
      rw [List.foldl_cons]
      by_cases heq : t0 = t
      · subst heq
        have hstep := mergeExcerpt_countText_create cl g t0 hlink
        calc countText g t0 + 1 = countText (mergeExcerpt cl g t0) t0 := hstep.symm
          _ ≤ _ := excerptFold_countText_mono cl t0 ts (mergeExcerpt cl g t0)
      · have hmem' : t ∈ ts := by
          rcases List.mem_cons.mp hmem with rfl | h
          · exact absurd rfl heq
          · exact h
        obtain ⟨hb', hcl', hlink', _, _⟩ := mergeExcerpt_analysis cl g t0 hb hcl
        have hlinknew : excerptLinked (mergeExcerpt cl g t0) cl t = false := by
          rcases hfb : excerptLinked (mergeExcerpt cl g t0) cl t with _ | _
          · rfl
          · rcases (hlink' t).mp hfb with hcase | hcase
            · rw [hlink] at hcase
              exact absurd hcase Bool.false_ne_true
            · exact absurd hcase heq
        have hsame := mergeExcerpt_countText_other cl g t0 t heq
        rw [← hsame]
        exact ih (mergeExcerpt cl g t0) hmem' hlinknew hb' hcl'

theorem createClause_adds_text (cid : Int) (g : Graph) (c : ClauseRecord) (t : String)
    (hb : g.IdsBounded) (ht : t ∈ c.excerpts) :
    countText g t + 1 ≤ countText (createClause cid g c) t := by
  obtain ⟨hcc, hexc, hhc, hhe, hht⟩ := hb
  set cl := g.nextId with hcl_def
  set g1 : Graph := { g with
      contractClauses := g.contractClauses ++ [(cl, c.clause_type)]
      nextId := g.nextId + 1 } with hg1
  have hedge : hasClauseEdge g1 cid cl = false :=
    hasClauseEdge_fresh g1 cid cl (fun e he => hhc e he)
  set g2 : Graph := mergeHasClause cid cl c.clause_type g1 with hg2
  have hg2e : g2 = { g1 with has_clause := g1.has_clause ++ [(cid, cl, c.clause_type)] } := by
    rw [hg2]
    unfold mergeHasClause
    rw [if_neg (by rw [hedge]; exact Bool.false_ne_true)]
  have hb2 : g2.IdsBounded := by
    rw [hg2e]
    refine ⟨?_, ?_, ?_, ?_, ?_⟩
    · intro x hx
      rcases List.mem_append.mp hx with h | h
      · exact Nat.lt_succ_of_lt (hcc x h)
      · simp at h
        rw [h]
        exact Nat.lt_succ_self _
    · intro x hx
      exact Nat.lt_succ_of_lt (hexc x hx)
    · intro x hx
      rcases List.mem_append.mp hx with h | h
      · exact Nat.lt_succ_of_lt (hhc x h)
      · simp at h
        rw [h]
        exact Nat.lt_succ_self _
    · intro x hx
      exact ⟨Nat.lt_succ_of_lt (hhe x hx).1, Nat.lt_succ_of_lt (hhe x hx).2⟩
    · intro x hx
      exact Nat.lt_succ_of_lt (hht x hx)
  have hcl2 : cl < g2.nextId := by
    rw [hg2e]
    exact Nat.lt_succ_self _
  have hlink2 : excerptLinked g2 cl t = false := by
    apply excerptLinked_fresh
    rw [hg2e]
    intro he hhe'
    exact (hhe he hhe').1
  have h2t : countText g2 t = countText g t := by
    apply countText_congr
    rw [hg2e]
  have hfold := excerptFold_adds_text cl t c.excerpts g2 ht hlink2 hb2 hcl2
  rw [h2t] at hfold
  set g3 : Graph := c.excerpts.foldl (mergeExcerpt cl) g2 with hg3
  have hfin : countText (createClause cid g c) t = countText g3 t := by
    apply countText_congr
    show (mergeHasType cl c.clause_type
        { g3 with clauseTypes := insertIfAbsent g3.clauseTypes c.clause_type }).excerpts
      = g3.excerpts
    unfold mergeHasType
    split <;> rfl
  rw [hfin]
  exact hfold

theorem mergeHasType_excerpts (cl : Nat) (ty : String) (g : Graph) :
    (mergeHasType cl ty g).excerpts = g.excerpts := by
  unfold mergeHasType
  split <;> rfl

theorem mergeHasClause_excerpts (cid : Int) (cl : Nat) (ty : String) (g : Graph) :
    (mergeHasClause cid cl ty g).excerpts = g.excerpts := by
  unfold mergeHasClause
  split <;> rfl

theorem createClause_excerpts (cid : Int) (g : Graph) (c : ClauseRecord) :
    (createClause cid g c).excerpts
      = (c.excerpts.foldl (mergeExcerpt g.nextId)
          (mergeHasClause cid g.nextId c.clause_type
            { g with contractClauses := g.contractClauses ++ [(g.nextId, c.clause_type)]
                     nextId := g.nextId + 1 })).excerpts := by
  show (mergeHasType _ _ _).excerpts = _
  rw [mergeHasType_excerpts]

theorem clauseFold_countText_mono (cid : Int) (t : String) :
    ∀ (cs : List ClauseRecord) (g : Graph),
      countText g t ≤ countText (cs.foldl (createClause cid) g) t := by
  intro cs
  induction cs with
  | nil => intro g; exact le_refl _
  | cons c cs ih =>
      intro g
      rw [List.foldl_cons]
      refine le_trans ?_ (ih (createClause cid g c))
      have h1 : countText g t = countText (mergeHasClause cid g.nextId c.clause_type
          { g with contractClauses := g.contractClauses ++ [(g.nextId, c.clause_type)]
                   nextId := g.nextId + 1 }) t := by
        refine (countText_congr t ?_).symm
        rw [mergeHasClause_excerpts]
      have h2 : countText (createClause cid g c) t
          = countText (c.excerpts.foldl (mergeExcerpt g.nextId)
              (mergeHasClause cid g.nextId c.clause_type
                { g with contractClauses := g.contractClauses ++ [(g.nextId, c.clause_type)]
                         nextId := g.nextId + 1 })) t :=
        countText_congr t (createClause_excerpts cid g c)
      rw [h1, h2]
      exact excerptFold_countText_mono g.nextId t c.excerpts _

theorem clauseFold_adds_text (cid : Int) (t : String) (cs : List ClauseRecord) (g : Graph)
    (c : ClauseRecord) (hc : c ∈ cs) (ht : t ∈ c.excerpts) (hb : g.IdsBounded) :
    countText g t + 1 ≤ countText (cs.foldl (createClause cid) g) t := by
  obtain ⟨s1, s2, hsplit⟩ := List.append_of_mem hc
  subst hsplit
  rw [List.foldl_append, List.foldl_cons]
  have hb1 : (s1.foldl (createClause cid) g).IdsBounded :=
    (clauseFold_counts cid s1 g hb).2.2.2.2.2.2
  have hmono1 : countText g t ≤ countText (s1.foldl (createClause cid) g) t :=
    clauseFold_countText_mono cid t s1 g
  have hadd : countText (s1.foldl (createClause cid) g) t + 1
      ≤ countText (createClause cid (s1.foldl (createClause cid) g) c) t :=
    createClause_adds_text cid (s1.foldl (createClause cid) g) c t hb1 ht
  have hmono2 : countText (createClause cid (s1.foldl (createClause cid) g) c) t
      ≤ countText (s2.foldl (createClause cid)
          (createClause cid (s1.foldl (createClause cid) g) c)) t :=
    clauseFold_countText_mono cid t s2 _
  omega

/-- **C2, counterexample.**  Ingesting two contracts that share the excerpt
string "Vendor shall maintain insurance." produces two `Excerpt` nodes with
that text, not one: the `MERGE` of the excerpt is anchored at the
freshly-`CREATE`d clause node, so the whole pattern never matches and a new
node is created per clause. -/
theorem shared_excerpt_duplicated :
    countText sampleGraph "Vendor shall maintain insurance." = 1 ∧
    countText sampleGraphBoth "Vendor shall maintain insurance." = 2 ∧
    sampleGraphBoth.agreements.length = 2 :=
  ⟨rfl, rfl, rfl⟩

/-- **C2, amended.**  Excerpt nodes are deduplicated only within a single
clause node's excerpt list, never globally: every execution of
`CREATE_GRAPH_QUERY` for a record with a valid clause containing excerpt text
`t` creates at least one fresh `Excerpt` node with text `t`, even when such a
node already exists — so two contracts sharing an identical excerpt string
hold two distinct `Excerpt` nodes, each reachable from its own
`ContractClause`. -/
theorem excerpt_no_global_dedup (g : Graph) (a : Agreement) (c : ClauseRecord) (t : String)
    (hb : g.IdsBounded) (hc : c ∈ validClauses a) (ht : t ∈ c.excerpts) :
    countText g t + 1 ≤ countText (createGraph g a) t := by
  obtain ⟨_, p2, _, _, _, _, _⟩ := preClauseGraph_fields g a
  have hpre : countText (preClauseGraph g a) t = countText g t := countText_congr t p2
  rw [createGraph_eq_clauseFold]
  rw [← hpre]
  exact clauseFold_adds_text a.contract_id t (validClauses a) (preClauseGraph g a) c hc ht
    (preClauseGraph_IdsBounded g a hb)

/-- Witness for C2's amended statement: re-using the shared string of the two
sample contracts. -/
theorem excerpt_no_global_dedup_witness :
    sampleGraph.IdsBounded ∧
    countText sampleGraph "Vendor shall maintain insurance." + 1
      ≤ countText sampleGraphBoth "Vendor shall maintain insurance." :=
  ⟨by decide, excerpt_no_global_dedup sampleGraph sampleRecord2
    { clause_type := "Insurance", «exists» := true
      excerpts := ["Vendor shall maintain insurance."] }
    "Vendor shall maintain insurance." (by decide) (by decide) (by decide)⟩

/-- The per-node effect of processing one selected (id, text) pair. -/
def applyOne (embed : String → Except String (List Int)) (sel : Nat × String)
    (e : ExcerptNode) : ExcerptNode :=
  match embed sel.2 with
  | .ok v => if e.id == sel.1 then { e with embedding := some v } else e
  | .error _ => e

/-- The expected per-node outcome of one backfill run: already-embedded nodes
are untouched; a pending node gets the vector if its embedding call succeeds
and stays pending if it fails. -/
def expectedBackfill (embed : String → Except String (List Int))
    (e : ExcerptNode) : ExcerptNode :=
  match e.embedding with
  | some _ => e
  | none =>
    match embed e.text with
    | .ok v => { e with embedding := some v }
    | .error _ => e

theorem backfillStep_excerpts (embed : String → Except String (List Int)) (g : Graph)
    (sel : Nat × String) :
    (backfillStep embed g sel).excerpts = g.excerpts.map (applyOne embed sel) := by
  unfold backfillStep applyOne
  rcases h : embed sel.2 with e | v <;> simp [h]

theorem foldl_map_comm {α σ : Type} (f : σ → α → α) :
    ∀ (todo : List σ) (xs : List α),
      todo.foldl (fun l s => l.map (f s)) xs
        = xs.map (fun x => todo.foldl (fun x s => f s x) x) := by
  intro todo
  induction todo with
  | nil => intro xs; simp
  | cons s ss ih =>
      intro xs
      rw [List.foldl_cons, ih (xs.map (f s)), List.map_map]
      rfl

theorem backfill_excerpts_formula (embed : String → Except String (List Int)) :
    ∀ (todo : List (Nat × String)) (g : Graph),
      (todo.foldl (backfillStep embed) g).excerpts
        = todo.foldl (fun l sel => l.map (applyOne embed sel)) g.excerpts := by
  intro todo
  induction todo with
  | nil => intro g; rfl
  | cons s ss ih =>
      intro g
      rw [List.foldl_cons, List.foldl_cons, ih, backfillStep_excerpts]

theorem applyOne_skip (embed : String → Except String (List Int)) (sel : Nat × String)
    (e : ExcerptNode) (h : sel.1 ≠ e.id) : applyOne embed sel e = e := by
  have hne : (e.id == sel.1) = false := by
    rw [beq_eq_false_iff_ne]
    exact fun hc => h hc.symm
  unfold applyOne
  rcases hv : embed sel.2 with err | v
  · rfl
  · simp [hne]

theorem applyOne_fold_skip (embed : String → Except String (List Int)) :
    ∀ (todo : List (Nat × String)) (e : ExcerptNode), (∀ sel ∈ todo, sel.1 ≠ e.id) →
      todo.foldl (fun x sel => applyOne embed sel x) e = e := by
  intro todo
  induction todo with
  | nil => intro e _; rfl
  | cons s ss ih =>
      intro e h
      rw [List.foldl_cons, applyOne_skip embed s e (h s (by simp))]
      exact ih e (fun sel hs => h sel (by simp [hs]))

theorem applyOne_hit (embed : String → Except String (List Int)) (e : ExcerptNode) :
    applyOne embed (e.id, e.text) e
      = match embed e.text with
        | .ok v => { e with embedding := some v }
        | .error _ => e := by
  unfold applyOne
  rcases hv : embed e.text with err | v <;> simp [hv]

theorem backfill_characterization (embed : String → Except String (List Int)) (g : Graph)
    (hnd : (g.excerpts.map ExcerptNode.id).Nodup) :
    (generate_embeddings_for_excerpts embed g).excerpts
      = g.excerpts.map (expectedBackfill embed) := by
  unfold generate_embeddings_for_excerpts
  rw [backfill_excerpts_formula, foldl_map_comm]
  apply List.map_congr_left
  intro e he
  have hpend_ids : ((g.excerpts.filter (fun x => x.embedding.isNone)).map ExcerptNode.id).Nodup :=
    hnd.sublist ((List.filter_sublist g.excerpts).map ExcerptNode.id)
  unfold expectedBackfill
  rcases hemb : e.embedding with _ | v
  · -- pending node: its (id, text) pair is selected exactly once
    have hmemf : e ∈ g.excerpts.filter (fun x => x.embedding.isNone) :=
      List.mem_filter.mpr ⟨he, by rw [hemb]; rfl⟩
    have hmem : (e.id, e.text) ∈ pendingExcerpts g := by
      unfold pendingExcerpts
      exact List.mem_map.mpr ⟨e, hmemf, rfl⟩
    obtain ⟨l1, l2, hsplit⟩ := List.append_of_mem hmem
    have hone : (pendingExcerpts g).map Prod.fst
        = (g.excerpts.filter (fun x => x.embedding.isNone)).map ExcerptNode.id := by
      unfold pendingExcerpts
      rw [List.map_map]
      rfl
    have hnp : ((pendingExcerpts g).map Prod.fst).Nodup := by
      rw [hone]
      exact hpend_ids
    rw [hsplit] at hnp
    rw [List.map_append, List.map_cons] at hnp
    have hno1 : ∀ sel ∈ l1, sel.1 ≠ e.id := by
      intro sel hs hcontra
      have : (e.id : Nat) ∈ l1.map Prod.fst := List.mem_map.mpr ⟨sel, hs, hcontra⟩
      have hdisj := (List.nodup_append.mp hnp).2.2
      exact hdisj this (by simp)
    have hno2 : ∀ sel ∈ l2, sel.1 ≠ e.id := by
      intro sel hs hcontra
      have hnd2 := (List.nodup_append.mp hnp).2.1
      have : (e.id : Nat) ∈ l2.map Prod.fst := List.mem_map.mpr ⟨sel, hs, hcontra⟩
      exact absurd this (List.nodup_cons.mp hnd2).1
    rw [hsplit, List.foldl_append, List.foldl_cons,
      applyOne_fold_skip embed l1 e hno1, applyOne_hit embed e]
    rcases hv : embed e.text with err | v
    · exact applyOne_fold_skip embed l2 e hno2
    · exact applyOne_fold_skip embed l2 _ hno2
  · -- already embedded: never selected
    apply applyOne_fold_skip
    intro sel hs hcontra
    unfold pendingExcerpts at hs
    obtain ⟨x, hxf, hxeq⟩ := List.mem_map.mp hs
    have hxid : x.id = e.id := by rw [← hxeq] at hcontra; exact hcontra
    have hxy := List.inj_on_of_nodup_map hnd (List.mem_filter.mp hxf).1 he hxid
    have : x.embedding.isNone = true := (List.mem_filter.mp hxf).2
    rw [hxy, hemb] at this
    exact Bool.noConfusion this

/-- An embedding capability that always succeeds. -/
def embedConst : String → Except String (List Int) := fun _ => .ok [7]

/-- An embedding capability that always fails. -/
def embedFailing : String → Except String (List Int) := fun _ => .error "embedding call failed"

/-- **C6, counterexample.**  `generate_embeddings_for_excerpts` returns
`None` (here: `Unit`) whatever happens: two runs with different success and
failure counts hand the caller identical values, so the operation does not
report a success count and a failure count to its caller. -/
theorem backfill_returns_no_counts :
    backfillSuccessCount embedConst sampleGraph = 1 ∧
    backfillFailureCount embedConst sampleGraph = 0 ∧
    backfillSuccessCount embedFailing sampleGraph = 0 ∧
    backfillFailureCount embedFailing sampleGraph = 1 ∧
    generate_embeddings_return embedConst sampleGraph
      = generate_embeddings_return embedFailing sampleGraph :=
  ⟨rfl, rfl, rfl, rfl, rfl⟩

/-- **C6, amended.**  The backfill loop reaches every selected excerpt
independently of the other items' outcomes: each pending excerpt ends up with
its vector when its embedding call succeeds and keeps its null embedding when
the call fails (remaining selected by the next run); already-embedded
excerpts are untouched.  The loop never aborts, but no success/failure count
is returned to the caller (the function returns `None`). -/
theorem backfill_per_item_tolerance (embed : String → Except String (List Int)) (g : Graph)
    (hnd : (g.excerpts.map ExcerptNode.id).Nodup) :
    (generate_embeddings_for_excerpts embed g).excerpts
      = g.excerpts.map (expectedBackfill embed) ∧
    (∀ e ∈ g.excerpts, e.embedding = none → ∀ err, embed e.text = .error err →
      (e.id, e.text) ∈ pendingExcerpts (generate_embeddings_for_excerpts embed g)) := by
  have hch := backfill_characterization embed g hnd
  refine ⟨hch, ?_⟩
  intro e he hnone err herr
  have hself : expectedBackfill embed e = e := by
    unfold expectedBackfill
    rw [hnone, herr]
  unfold pendingExcerpts
  rw [hch]
  apply List.mem_map.mpr
  refine ⟨e, ?_, rfl⟩
  apply List.mem_filter.mpr
  refine ⟨?_, by rw [hnone]; rfl⟩
  apply List.mem_map.mpr
  exact ⟨e, he, hself⟩

/-- Witness for C6's amended statement: a failing embedding capability leaves
the sample excerpt pending and selected by the next run. -/
theorem backfill_per_item_tolerance_witness :
    (sampleGraph.excerpts.map ExcerptNode.id).Nodup ∧
    (generate_embeddings_for_excerpts embedFailing sampleGraph).excerpts
      = sampleGraph.excerpts.map (expectedBackfill embedFailing) ∧
    (1, "Vendor shall maintain insurance.")
      ∈ pendingExcerpts (generate_embeddings_for_excerpts embedFailing sampleGraph) :=
  ⟨by decide, (backfill_per_item_tolerance embedFailing sampleGraph (by decide)).1,
   (backfill_per_item_tolerance embedFailing sampleGraph (by decide)).2
     { id := 1, text := "Vendor shall maintain insurance.", embedding := none }
     (by decide) rfl "embedding call failed" rfl⟩
